import Mathlib

/-!
Shallow embedding of the ATACFlux thermodynamic-cache pipeline
(`scripts/reaction_thermo_cache.py` and `scripts/compound_thermo_cache.py`).

Modelling conventions:
* Python floats are modelled as rationals (`ℚ`); the numeric literals of the
  source (`1e-9`, `96.485`, `2.479 * 2.303`, pH defaults, ...) are carried over
  exactly.
* Python dicts are modelled as insertion-ordered association lists, with
  dict-update (`setKey`), numeric accumulation (`accKey`, the
  `d[k] = d.get(k, 0) + v` idiom) and ordered lookup (`lookupKey`).
* The external eQuilibrator service (`ComponentContribution`) is modelled as an
  `Oracle` of functions returning `Except`: `.error msg` models a raised
  exception caught by the script, `.ok` a successful call.  The ambient-pH
  attribute `cc._p_h`, mutated by the multicompartmental branch, is explicit
  state (`CC`).  Formula strings are modelled structurally (`Formula`) since no
  property depends on their textual rendering.
* `queried_as` values in the compound cache are `Option String`; the Python
  code guards them by truthiness, and the cache never stores an empty string,
  so `none` models both `None` and the unreachable `""`.
-/

namespace ATACFlux

/-! ### Association-list dictionaries (Python `dict` semantics) -/

/-- Ordered lookup in an association list (Python `d.get(k)`). -/
def lookupKey {α : Type} : List (String × α) → String → Option α
  | [], _ => none
  | (k, v) :: rest, q => if k = q then some v else lookupKey rest q

/-- Dict update `d[k] = v`: overwrite in place, else append (insertion order). -/
def setKey {α : Type} : List (String × α) → String → α → List (String × α)
  | [], k, v => [(k, v)]
  | (k', v') :: rest, k, v =>
    if k' = k then (k', v) :: rest else (k', v') :: setKey rest k v

/-- Numeric accumulation `d[k] = d.get(k, 0) + v`. -/
def accKey {α : Type} [DecidableEq α] : List (α × ℚ) → α → ℚ → List (α × ℚ)
  | [], k, v => [(k, v)]
  | (k', v') :: rest, k, v =>
    if k' = k then (k', v' + v) :: rest else (k', v') :: accKey rest k v

/-- In-place value update for an existing key, identity if absent. -/
def updateKey {α : Type} : List (String × α) → String → (α → α) → List (String × α)
  | [], _, _ => []
  | (k, v) :: rest, q, f =>
    if k = q then (k, f v) :: rest else (k, v) :: updateKey rest q f

/-- Keys of an association list, in insertion order. -/
def keys {α : Type} (l : List (String × α)) : List String := l.map (·.1)

/-- Insert into an insertion-ordered set (Python `set.add`). -/
def insertNew (l : List String) (s : String) : List String :=
  if s ∈ l then l else l ++ [s]

/-- The numerical-noise threshold `1e-9` of the source. -/
def eps : ℚ := 1 / 1000000000

/-- The repeated filter idiom dropping entries with `abs(v) <= 1e-9`. -/
def filterSmall (l : List (String × ℚ)) : List (String × ℚ) :=
  l.filter fun p => eps < |p.2|

/-! ### Data model (reaction script) -/

/-- A model metabolite as seen by `reaction_thermo_cache.py`. -/
structure Met where
  id : String
  name : String
  compartment : String
deriving DecidableEq

/-- A model reaction: its metabolite/coefficient pairs in model order. -/
structure Rxn where
  id : String
  mets : List (Met × ℚ)
deriving DecidableEq

/-- The slice of a compound-cache entry the reaction script reads. -/
structure CompEntry where
  queried_as : Option String
deriving DecidableEq

/-- `compound_lookup`: yeast-GEM metabolite id to cached compound entry. -/
abbrev Lookup := String → Option CompEntry

/-- KEGG ID for H+ (`PROTON_KEGG` constant of the source). -/
def PROTON_KEGG : String := "kegg:C00080"

/-- Membrane configuration record. -/
structure Membrane where
  inner : String
  outer : String
  potential_mV : ℚ
deriving DecidableEq

/-- Per-model compartment parameters (`compartment_parameters.json`):
compartment pH table, membranes, and default ionic strength. -/
structure CompartmentParams where
  compartments : List (String × ℚ)
  membranes : List (String × Membrane)
  ionic_strength : ℚ
deriving DecidableEq

/-- One configured redox couple (`redox_couples.json`). -/
structure RedoxCouple where
  oxidized_kegg : String
  reduced_kegg : String
  potential_mV : ℚ
deriving DecidableEq

/-- `membranes` of the main routine: empty when no compartment parameters. -/
def membranesOf : Option CompartmentParams → List (String × Membrane)
  | none => []
  | some p => p.membranes

/-- `compartments.get(c, dict()).get("pH", 7.0)`. -/
def pHOf (params : CompartmentParams) (c : String) : ℚ :=
  (lookupKey params.compartments c).getD 7

/-! ### Stoichiometry construction -/

/-- Net stoichiometry keyed by resolved identifier: the accumulation loop of
`main` followed by the `abs(v) > 1e-9` filter (source lines 325-350). -/
def buildStoichiometry (lookup : Lookup) (rxn : Rxn) : List (String × ℚ) :=
  filterSmall <| rxn.mets.foldl (fun acc mc =>
    match lookup mc.1.id with
    | some e =>
      match e.queried_as with
      | some q => accKey acc q mc.2
      | none => acc
    | none => acc) []

/-- `analyze_proton_compartments`: net H+ coefficient per compartment, `none`
if no H+ (by the `queried_as == PROTON_KEGG` test) survives the zero filter. -/
def analyze_proton_compartments (lookup : Lookup) (rxn : Rxn) :
    Option (List (String × ℚ)) :=
  let m := rxn.mets.foldl (fun acc mc =>
    match lookup mc.1.id with
    | some e =>
      if e.queried_as = some PROTON_KEGG then accKey acc mc.1.compartment mc.2
      else acc
    | none => acc) []
  let m := filterSmall m
  if m.isEmpty then none else some m

/-- Scan of the membrane table inside `is_transmembrane_proton_reaction`. -/
def findMembrane (comps : List String) :
    List (String × Membrane) → Option (String × String × String)
  | [] => none
  | (k, mb) :: rest =>
    if mb.inner ∈ comps ∧ mb.outer ∈ comps then some (mb.inner, mb.outer, k)
    else findMembrane comps rest

/-- `is_transmembrane_proton_reaction`: first configured membrane whose inner
and outer compartments both carry net H+. -/
def is_transmembrane_proton_reaction (pc : Option (List (String × ℚ)))
    (membranes : List (String × Membrane)) : Option (String × String × String) :=
  match pc with
  | none => none
  | some l => if l.length < 2 then none else findMembrane (keys l) membranes

/-- `build_half_reactions`: split the reaction into inner- and outer-compartment
partial stoichiometries; metabolites in other compartments, or without a
resolved identifier, are dropped; both halves are zero-filtered. -/
def build_half_reactions (lookup : Lookup) (rxn : Rxn) (innerC outerC : String) :
    List (String × ℚ) × List (String × ℚ) :=
  let p := rxn.mets.foldl
    (fun (acc : List (String × ℚ) × List (String × ℚ)) mc =>
      match lookup mc.1.id with
      | some e =>
        match e.queried_as with
        | some q =>
          if mc.1.compartment = innerC then (accKey acc.1 q mc.2, acc.2)
          else if mc.1.compartment = outerC then (acc.1, accKey acc.2 q mc.2)
          else acc
        | none => acc
      | none => acc) ([], [])
  (filterSmall p.1, filterSmall p.2)

/-- Structural model of an eQuilibrator formula string: substrate terms
(absolute coefficient, identifier) and product terms. -/
structure Formula where
  subs : List (ℚ × String)
  prods : List (ℚ × String)
deriving DecidableEq

/-- `stoich_to_formula`: negative coefficients become substrate terms with
their absolute value, the rest product terms.  (The inline formula construction
of the standard branch, source lines 579-584, builds the same terms.) -/
def stoich_to_formula (s : List (String × ℚ)) : Formula :=
  s.foldl (fun f p =>
    if p.2 < 0 then { f with subs := f.subs ++ [(|p.2|, p.1)] }
    else { f with prods := f.prods ++ [(|p.2|, p.1)] }) ⟨[], []⟩

/-! ### Redox couples -/

/-- `load_redox_couples`: dict mapping KEGG id to
(is_reduced, potential_mV, couple name); oxidized written first. -/
def load_redox_couples (cfg : List (String × RedoxCouple)) :
    List (String × Bool × ℚ × String) :=
  cfg.foldl (fun acc p =>
    let acc1 := setKey acc p.2.oxidized_kegg (false, p.2.potential_mV, p.1)
    setKey acc1 p.2.reduced_kegg (true, p.2.potential_mV, p.1)) []

/-- Reverse-lookup record built inside `reaction_needs_redox`. -/
structure CoupleInfo where
  potential : ℚ
  oxidized : Option String
  reduced : Option String
deriving DecidableEq

/-- One step of the `couples_by_name` reconstruction loop. -/
def insertCouple (acc : List (String × CoupleInfo)) (kegg : String)
    (e : Bool × ℚ × String) : List (String × CoupleInfo) :=
  let cname := e.2.2
  let acc1 :=
    match lookupKey acc cname with
    | some _ => acc
    | none => acc ++ [(cname, ⟨e.2.1, none, none⟩)]
  updateKey acc1 cname fun info =>
    if e.1 then { info with reduced := some kegg }
    else { info with oxidized := some kegg }

/-- `couples_by_name`: couple name to the ox/red ids recovered from the flat
redox lookup. -/
def couplesByName (redoxLk : List (String × Bool × ℚ × String)) :
    List (String × CoupleInfo) :=
  redoxLk.foldl (fun acc p => insertCouple acc p.1 p.2) []

/-- All resolved identifiers occurring in a reaction (`keggs_in_rxn` set). -/
def keggsInRxn (lookup : Lookup) (rxn : Rxn) : List String :=
  rxn.mets.foldl (fun acc mc =>
    match lookup mc.1.id with
    | some e =>
      match e.queried_as with
      | some q => insertNew acc q
      | none => acc
    | none => acc) []

/-- A couple is complete for a reaction iff both its recovered forms are
present among the reaction's resolved identifiers. -/
def coupleActive (info : CoupleInfo) (keggs : List String) : Bool :=
  match info.oxidized, info.reduced with
  | some ox, some red => decide (ox ∈ keggs) && decide (red ∈ keggs)
  | _, _ => false

/-- `reaction_needs_redox`: identifiers of the reaction that belong to a
complete couple, with their phase data; empty when no couple is complete. -/
def reaction_needs_redox (lookup : Lookup)
    (redoxLk : List (String × Bool × ℚ × String)) (rxn : Rxn) :
    List (String × Bool × ℚ × String) :=
  let keggs := keggsInRxn lookup rxn
  let complete := ((couplesByName redoxLk).filter
    fun p => coupleActive p.2 keggs).map (·.1)
  if complete.isEmpty then [] else
  rxn.mets.foldl (fun acc mc =>
    match lookup mc.1.id with
    | some e =>
      match e.queried_as with
      | some kegg =>
        match lookupKey redoxLk kegg with
        | some (isRed, pot, cname) =>
          if cname ∈ complete then acc ++ [(kegg, isRed, pot, cname)] else acc
        | none => acc
      | none => acc
    | none => acc) []

/-- Phase wrapper of a compound inside the redox calculation: `plain` models
`PhasedCompound`, `carrier p` models `RedoxCarrier` at potential `p` mV. -/
inductive Phase where
  | plain
  | carrier (potential_mV : ℚ)
deriving DecidableEq

/-- Generic numeric accumulation for phased keys. -/
def accPhased (l : List ((String × Phase) × ℚ)) (k : String × Phase) (v : ℚ) :
    List ((String × Phase) × ℚ) :=
  accKey l k v

/-- The phased-reaction construction of `calc_dg_with_redox_carriers`:
each resolved metabolite is wrapped (reduced member of a couple at its
literature potential, oxidized member at 0 mV, others plain) and accumulated
per distinct (compound, phase) key; `couples_used` collects the couple names
of every redox compound encountered. -/
def buildPhased (lookup : Lookup)
    (redoxLk : List (String × Bool × ℚ × String)) (rxn : Rxn) :
    List ((String × Phase) × ℚ) × List String :=
  rxn.mets.foldl
    (fun (acc : List ((String × Phase) × ℚ) × List String) mc =>
      match lookup mc.1.id with
      | some e =>
        match e.queried_as with
        | some kegg =>
          match lookupKey redoxLk kegg with
          | some (isRed, pot, cname) =>
            (accPhased acc.1 (kegg, .carrier (if isRed then pot else 0)) mc.2,
             insertNew acc.2 cname)
          | none => (accPhased acc.1 (kegg, .plain) mc.2, acc.2)
        | none => acc
      | none => acc) ([], [])

/-! ### Result entries, external service, dispatch -/

/-- Calculation method tag (`entry["thermodynamics"]["method"]`); the source
stores the strings "standard", "multicompartmental", "proton_pump",
"redox_carrier" and "standard (fallback)". -/
inductive Method where
  | standard
  | multicompartmental
  | proton_pump
  | redox_carrier
  | standardFallback
deriving DecidableEq

/-- Structural model of the `formula_queried` string: the literal transport
marker, a standard formula, the RedoxCarrier-based description, or the
multicompartmental pair of half-formulas with their compartments. -/
inductive FormulaQ where
  | transport
  | std (f : Formula)
  | redoxBased (couples : List String)
  | multi (innerComp : String) (innerF : Formula) (outerComp : String)
      (outerF : Formula)
deriving DecidableEq

/-- Records appended to a reaction entry's `errors` list. -/
inductive RxnError where
  | metabolite_not_in_cache (mets : List String)
  | not_found_in_equilibrator (mets : List String)
  | redox_carrier_error (msg : String) (couples_attempted : List String)
  | proton_pump_error (msg : String) (innerF outerF : Formula)
  | multicompartmental_error (msg : String)
  | equilibrator_error (msg : String)
deriving DecidableEq

/-- The `thermodynamics` sub-dictionary of a reaction entry; `none` models an
absent key (only `dG_prime`, `uncertainty` and `formula_queried` are
pre-initialised, to `None`). -/
structure Thermo where
  dG_prime : Option ℚ
  uncertainty : Option ℚ
  formula_queried : Option FormulaQ
  method : Option Method
  couples_used : Option (List String)
  membrane : Option String
  inner_compartment : Option String
  outer_compartment : Option String
  proton_stoichiometry : Option (List (String × ℚ))
  dG_chemistry : Option ℚ
  dG_membrane : Option ℚ
  dG_per_proton : Option ℚ
  inner_pH : Option ℚ
  outer_pH : Option ℚ
  membrane_potential_mV : Option ℚ
  vectorial_protons : Option ℚ
deriving DecidableEq

/-- All-absent thermodynamics record. -/
def Thermo.empty : Thermo :=
  ⟨none, none, none, none, none, none, none, none,
   none, none, none, none, none, none, none, none⟩

/-- A `ReactionThermoEntry` (the fields the claims are about). -/
structure Entry where
  stoichiometry : List (String × ℚ)
  thermo : Thermo
  errors : List RxnError
deriving DecidableEq

/-- One external eQuilibrator call, for call accounting.  A parse of a formula
followed by the dG query on its result is one round trip to the service. -/
inductive ExtCall where
  | standardDg (pH : ℚ) (f : Formula)
  | multiDg (innerPH : ℚ) (innerF outerF : Formula)
      (potentialV outerPH ionic : ℚ)
  | redoxDg (pH : ℚ) (sparse : List ((String × Phase) × ℚ))
deriving DecidableEq

/-- The external service: each capability takes the ambient pH held by the
calculator and returns either a (value, uncertainty) pair or a raised
exception message. -/
structure Oracle where
  standardDg : ℚ → Formula → Except String (ℚ × ℚ)
  multiDg : ℚ → Formula → Formula → ℚ → ℚ → ℚ → Except String (ℚ × ℚ)
  redoxDg : ℚ → List ((String × Phase) × ℚ) → Except String (ℚ × ℚ)

/-- Mutable calculator state: the ambient pH attribute `cc._p_h`. -/
structure CC where
  p_h : ℚ
deriving DecidableEq

/-- `ComponentContribution()` default ambient pH. -/
def defaultCC : CC := ⟨7⟩

/-- The whole run configuration handed to the per-reaction dispatch. -/
structure Config where
  lookup : Lookup
  params : Option CompartmentParams
  redox : List (String × RedoxCouple)

/-- Faraday constant as used by the source: `F = 96.485` kJ/(mol·V). -/
def F : ℚ := 96485 / 1000

/-- `RT_ln10 = 2.479 * 2.303` kJ/mol at 298 K. -/
def RT_ln10 : ℚ := (2479 / 1000) * (2303 / 1000)

/-- The two bookkeeping errors recorded before any calculation: metabolites
missing from the compound cache, and cached metabolites whose resolution
failed (source lines 353-367). -/
def baseErrors (lookup : Lookup) (rxn : Rxn) : List RxnError :=
  let notInCache := (rxn.mets.filter fun mc => (lookup mc.1.id).isNone).map
    fun mc => mc.1.id
  let notFound := (rxn.mets.filter fun mc =>
    match lookup mc.1.id with
    | some e => e.queried_as.isNone
    | none => false).map fun mc => mc.1.id
  (if notInCache.isEmpty then [] else [.metabolite_not_in_cache notInCache])
    ++ (if notFound.isEmpty then [] else [.not_found_in_equilibrator notFound])

/-- The standard calculation (source lines 577-597): build the full formula,
tag the entry, query the service at the current ambient pH; on failure record
an `equilibrator_error` and leave `dG_prime` null. -/
def standardCalc (O : Oracle) (cc : CC) (stoich : List (String × ℚ))
    (errs : List RxnError) : CC × Entry × List ExtCall :=
  let formula := stoich_to_formula stoich
  let t := { Thermo.empty with
    formula_queried := some (.std formula)
    method := some .standard }
  match O.standardDg cc.p_h formula with
  | .ok vu =>
    (cc, ⟨stoich, { t with dG_prime := some vu.1, uncertainty := some vu.2 },
      errs⟩, [.standardDg cc.p_h formula])
  | .error m =>
    (cc, ⟨stoich, t, errs ++ [.equilibrator_error m]⟩,
      [.standardDg cc.p_h formula])

/-- The proton electrochemical potential of source lines 456-464:
`dG_per_proton = F * delta_psi + RT_ln10 * (pH_outer - pH_inner)` with the
membrane potential given in mV. -/
def dGPerProton (potential_mV pH_inner pH_outer : ℚ) : ℚ :=
  F * (potential_mV / 1000) + RT_ln10 * (pH_outer - pH_inner)

/-- The direction rule of source lines 466-479: count the H+ leaving the
outer compartment when the per-proton energy is negative, the H+ appearing in
the inner compartment otherwise. -/
def vectorialProtons (dG_per_proton n_outer n_inner : ℚ) : ℚ :=
  if dG_per_proton < 0 then |n_outer| else |n_inner|

/-- The proton-pump branch (source lines 447-515): manual electrochemical
membrane correction added to the chemical dG of the full net reaction; on
failure of the chemical query, record a `proton_pump_error` and fall through
to the standard calculation. -/
def protonPumpCalc (O : Oracle) (cc : CC) (stoich : List (String × ℚ))
    (errs : List RxnError) (params : CompartmentParams)
    (pcl : List (String × ℚ)) (innerC outerC : String) (mb : Membrane)
    (innerF outerF : Formula) : CC × Entry × List ExtCall :=
  let inner_pH := pHOf params innerC
  let outer_pH := pHOf params outerC
  let potential_mV := mb.potential_mV
  let dG_per_proton := dGPerProton potential_mV inner_pH outer_pH
  let n_outer := (lookupKey pcl outerC).getD 0
  let n_inner := (lookupKey pcl innerC).getD 0
  let n_vectorial := vectorialProtons dG_per_proton n_outer n_inner
  let dG_membrane := n_vectorial * dG_per_proton
  let formula := stoich_to_formula stoich
  match O.standardDg cc.p_h formula with
  | .ok vu =>
    (cc, ⟨stoich,
      { Thermo.empty with
        dG_prime := some (vu.1 + dG_membrane)
        uncertainty := some vu.2
        method := some .proton_pump
        formula_queried := some (.std formula)
        dG_chemistry := some vu.1
        dG_membrane := some dG_membrane
        dG_per_proton := some dG_per_proton
        inner_pH := some inner_pH
        outer_pH := some outer_pH
        membrane_potential_mV := some potential_mV
        vectorial_protons := some n_vectorial
        proton_stoichiometry := some pcl }, errs⟩,
      [.standardDg cc.p_h formula])
  | .error msg =>
    let r := standardCalc O cc stoich
      (errs ++ [.proton_pump_error msg innerF outerF])
    (r.1, r.2.1, .standardDg cc.p_h formula :: r.2.2)

/-- The multicompartmental branch (source lines 519-576): the diagnostic
fields are written before the attempt; the ambient pH is set to the inner
compartment's pH and never restored; on failure the entry keeps those fields,
the method is overwritten to the fallback tag, and the standard query runs at
the already-modified ambient pH. -/
def multiCalc (O : Oracle) (stoich : List (String × ℚ))
    (errs : List RxnError) (params : CompartmentParams)
    (pcl : List (String × ℚ)) (innerC outerC mkey : String) (mb : Membrane)
    (innerF outerF : Formula) : CC × Entry × List ExtCall :=
  let t1 := { Thermo.empty with
    formula_queried := some (.multi innerC innerF outerC outerF)
    method := some .multicompartmental
    membrane := some mkey
    inner_compartment := some innerC
    outer_compartment := some outerC
    proton_stoichiometry := some pcl }
  let inner_pH := pHOf params innerC
  let cc1 : CC := ⟨inner_pH⟩
  let potential_mV := mb.potential_mV
  let outer_pH := pHOf params outerC
  let call : ExtCall := .multiDg inner_pH innerF outerF (potential_mV / 1000)
    outer_pH params.ionic_strength
  match O.multiDg inner_pH innerF outerF (potential_mV / 1000) outer_pH
      params.ionic_strength with
  | .ok vu =>
    (cc1, ⟨stoich,
      { t1 with
        dG_prime := some vu.1
        uncertainty := some vu.2
        inner_pH := some inner_pH
        outer_pH := some outer_pH
        membrane_potential_mV := some potential_mV }, errs⟩, [call])
  | .error msg =>
    let errs1 := errs ++ [.multicompartmental_error msg]
    let formula := stoich_to_formula stoich
    let t2 := { t1 with
      method := some .standardFallback
      formula_queried := some (.std formula) }
    match O.standardDg cc1.p_h formula with
    | .ok vu =>
      (cc1, ⟨stoich,
        { t2 with dG_prime := some vu.1, uncertainty := some vu.2 }, errs1⟩,
        [call, .standardDg cc1.p_h formula])
    | .error m2 =>
      (cc1, ⟨stoich, t2, errs1 ++ [.equilibrator_error m2]⟩,
        [call, .standardDg cc1.p_h formula])

/-- The `outer_stoich and all(v > 0 ...)` test of source lines 444-445: a
partial formula that is nonempty and has only product terms. -/
def onlyProducts (l : List (String × ℚ)) : Bool :=
  !l.isEmpty && l.all fun p => 0 < p.2

/-- The membrane decision (source lines 426-447): on a matched membrane with
compartment parameters loaded, split the halves and choose proton-pump when
either half has only product terms, multicompartmental otherwise; in every
other case run the standard calculation. -/
def processMembrane (cfg : Config) (O : Oracle) (cc : CC) (rxn : Rxn)
    (stoich : List (String × ℚ)) (errs : List RxnError) :
    CC × Entry × List ExtCall :=
  let pc := analyze_proton_compartments cfg.lookup rxn
  match cfg.params, pc with
  | some params, some pcl =>
    match is_transmembrane_proton_reaction (some pcl) params.membranes with
    | some iok =>
      let innerC := iok.1
      let outerC := iok.2.1
      let mkey := iok.2.2
      let mb := (lookupKey params.membranes mkey).getD ⟨"", "", 0⟩
      let halves := build_half_reactions cfg.lookup rxn innerC outerC
      let innerF := stoich_to_formula halves.1
      let outerF := stoich_to_formula halves.2
      let outerOnlyProducts := onlyProducts halves.2
      let innerOnlyProducts := onlyProducts halves.1
      if outerOnlyProducts || innerOnlyProducts then
        protonPumpCalc O cc stoich errs params pcl innerC outerC mb innerF outerF
      else
        multiCalc O stoich errs params pcl innerC outerC mkey mb innerF outerF
    | none => standardCalc O cc stoich errs
  | _, _ => standardCalc O cc stoich errs

/-- Processing of one reaction (the body of the loop of `main`, source lines
316-599): transport short-circuit, redox-carrier attempt, membrane
classification, standard fallback. -/
def processReaction (cfg : Config) (O : Oracle) (cc : CC) (rxn : Rxn) :
    CC × Entry × List ExtCall :=
  let stoich := buildStoichiometry cfg.lookup rxn
  let errs0 := baseErrors cfg.lookup rxn
  if stoich.isEmpty then
    (cc, ⟨stoich,
      { Thermo.empty with
        dG_prime := some 0
        uncertainty := some 0
        formula_queried := some .transport }, errs0⟩, [])
  else
    let redoxLk := load_redox_couples cfg.redox
    let redoxCompounds := reaction_needs_redox cfg.lookup redoxLk rxn
    if redoxCompounds.isEmpty then
      processMembrane cfg O cc rxn stoich errs0
    else
      let ph := buildPhased cfg.lookup redoxLk rxn
      match O.redoxDg cc.p_h ph.1 with
      | .ok vu =>
        (cc, ⟨stoich,
          { Thermo.empty with
            dG_prime := some vu.1
            uncertainty := some vu.2
            method := some .redox_carrier
            couples_used := some ph.2
            formula_queried := some (.redoxBased ph.2) }, errs0⟩,
          [.redoxDg cc.p_h ph.1])
      | .error msg =>
        let r := processMembrane cfg O cc rxn stoich
          (errs0 ++ [.redox_carrier_error msg
            (redoxCompounds.map fun t => t.2.2.2)])
        (r.1, r.2.1, .redoxDg cc.p_h ph.1 :: r.2.2)

/-- Processing of a whole reaction list, threading the calculator state. -/
def processAll (cfg : Config) (O : Oracle) (cc : CC) :
    List Rxn → CC × List Entry
  | [] => (cc, [])
  | r :: rs =>
    let step := processReaction cfg O cc r
    let rest := processAll cfg O step.1 rs
    (rest.1, step.2.1 :: rest.2)

/-! ### Compound script (`compound_thermo_cache.py`) -/

/-- A model metabolite as seen by the compound script.  The `annotation`
mapping of the source is the `annot` field (namespace to identifier value);
the model never stores an empty-string value, matching the truthiness guards
of the source. -/
structure CMet where
  id : String
  name : String
  annot : List (String × String)
deriving DecidableEq

/-- `ID_PRIORITY`: (annotation key, eQuilibrator prefix) in priority order. -/
def ID_PRIORITY : List (String × String) :=
  [("kegg.compound", "kegg"), ("chebi", "chebi"),
   ("metanetx.chemical", "metanetx.chemical"),
   ("bigg.metabolite", "bigg.metabolite")]

/-- `get_all_identifiers`: candidate (query string, source) pairs in priority
order; a ChEBI value is normalised to carry a `CHEBI:` prefix. -/
def get_all_identifiers (met : CMet) : List (String × String) :=
  ID_PRIORITY.foldl (fun acc p =>
    match lookupKey met.annot p.1 with
    | some value =>
      if p.1 = "chebi" then
        let v := if value.startsWith "CHEBI:" then value else "CHEBI:" ++ value
        acc ++ [("chebi:" ++ v, p.1)]
      else acc ++ [(p.2 ++ ":" ++ value, p.1)]
    | none => acc) []

/-- Grouping key of a metabolite: its first (highest-priority) identifier, or
the name fallback. -/
def groupKey (met : CMet) : String :=
  match get_all_identifiers met with
  | [] => "name:" ++ met.name
  | p :: _ => p.1

/-- `compound_groups[key].append(met)` on a `defaultdict(list)`. -/
def addMem : List (String × List CMet) → String → CMet →
    List (String × List CMet)
  | [], k, m => [(k, [m])]
  | (k', ms) :: rest, k, m =>
    if k' = k then (k', ms ++ [m]) :: rest else (k', ms) :: addMem rest k m

/-- The grouping loop of `main` (source lines 134-145). -/
def compound_groups (mets : List CMet) : List (String × List CMet) :=
  mets.foldl (fun acc m => addMem acc (groupKey m) m) []

/-- The `yeast_gem` member list of one group (source lines 173-174). -/
def memberIds (g : String × List CMet) : List String := g.2.map (·.id)

/-- External resolution service of the compound script: lookup by identifier
string and search by name, each returning a nullable InChI key or raising. -/
structure COracle where
  byId : String → Except String (Option String)
  byName : String → Except String (Option String)

/-- One record of the per-attempt `errors` list. -/
structure CascadeError where
  source : String
  query : String
  error : String
  found : Bool
deriving DecidableEq

/-- One external call issued by the cascade. -/
inductive CCall where
  | byId (q : String)
  | byName (n : String)
deriving DecidableEq

/-- The quadruple returned by `query_with_cascade`. -/
structure CascadeResult where
  inchi_key : Option String
  queried_as : Option String
  query_source : Option String
  errors : List CascadeError
deriving DecidableEq

/-- The identifier loop of `query_with_cascade`, with a log of the calls
issued: stop at the first identifier the service resolves, recording every
failed attempt. -/
def cascadeIds (O : COracle) : List (String × String) →
    Option (Option String × String × String) × List CascadeError × List CCall
  | [] => (none, [], [])
  | (q, src) :: rest =>
    match O.byId q with
    | .ok k => (some (k, q, src), [], [.byId q])
    | .error e =>
      let r := cascadeIds O rest
      (r.1, ⟨src, q, e, false⟩ :: r.2.1, .byId q :: r.2.2)

/-- `query_with_cascade` (source lines 83-117): try each identifier in order,
then fall back to name search; every failed attempt is recorded. -/
def query_with_cascade (O : COracle) (ids : List (String × String))
    (name : String) : CascadeResult × List CCall :=
  match cascadeIds O ids with
  | (some kqs, errs, calls) => (⟨kqs.1, some kqs.2.1, some kqs.2.2, errs⟩, calls)
  | (none, errs, calls) =>
    match O.byName name with
    | .ok k =>
      (⟨k, some name, some "name_search", errs⟩, calls ++ [.byName name])
    | .error e =>
      (⟨none, none, none, errs ++ [⟨"name_search", name, e, false⟩]⟩,
        calls ++ [.byName name])

/-- Whether a logged call succeeds against the service. -/
def callSucceeds (O : COracle) : CCall → Bool
  | .byId q => (O.byId q).isOk
  | .byName n => (O.byName n).isOk

/-- The message of a failed service reply (unused on success). -/
def msgOf : Except String (Option String) → String
  | .ok _ => ""
  | .error e => e

/-- The payload of a successful service reply (unused on failure). -/
def okVal : Except String (Option String) → Option String
  | .ok k => k
  | .error _ => none

/-- The error record a failed identifier attempt produces. -/
def idErrRec (O : COracle) (p : String × String) : CascadeError :=
  ⟨p.2, p.1, msgOf (O.byId p.1), false⟩

/-- Identifier attempts that fail against the service. -/
def idFails (O : COracle) (p : String × String) : Bool :=
  !(O.byId p.1).isOk

/-! ### Branch characterization lemmas -/

theorem standardCalc_method (O : Oracle) (cc : CC) (s : List (String × ℚ))
    (errs : List RxnError) :
    (standardCalc O cc s errs).2.1.thermo.method = some Method.standard := by
  cases h : O.standardDg cc.p_h (stoich_to_formula s) <;>
    simp [standardCalc, h]

theorem standardCalc_cc (O : Oracle) (cc : CC) (s : List (String × ℚ))
    (errs : List RxnError) : (standardCalc O cc s errs).1 = cc := by
  cases h : O.standardDg cc.p_h (stoich_to_formula s) <;>
    simp [standardCalc, h]

theorem multiCalc_method (O : Oracle) (s : List (String × ℚ))
    (errs : List RxnError) (params : CompartmentParams)
    (pcl : List (String × ℚ)) (innerC outerC mkey : String) (mb : Membrane)
    (innerF outerF : Formula) :
    (multiCalc O s errs params pcl innerC outerC mkey mb innerF outerF).2.1.thermo.method
        = some Method.multicompartmental ∨
      (multiCalc O s errs params pcl innerC outerC mkey mb innerF outerF).2.1.thermo.method
        = some Method.standardFallback := by
  cases h : O.multiDg (pHOf params innerC) innerF outerF (mb.potential_mV / 1000)
      (pHOf params outerC) params.ionic_strength with
  | ok vu => left; simp [multiCalc, h]
  | error msg =>
    right
    cases h2 : O.standardDg (pHOf params innerC) (stoich_to_formula s) <;>
      simp [multiCalc, h, h2]

theorem multiCalc_cc (O : Oracle) (s : List (String × ℚ))
    (errs : List RxnError) (params : CompartmentParams)
    (pcl : List (String × ℚ)) (innerC outerC mkey : String) (mb : Membrane)
    (innerF outerF : Formula) :
    (multiCalc O s errs params pcl innerC outerC mkey mb innerF outerF).1
      = ⟨pHOf params innerC⟩ := by
  cases h : O.multiDg (pHOf params innerC) innerF outerF (mb.potential_mV / 1000)
      (pHOf params outerC) params.ionic_strength with
  | ok vu => simp [multiCalc, h]
  | error msg =>
    cases h2 : O.standardDg (pHOf params innerC) (stoich_to_formula s) <;>
      simp [multiCalc, h, h2]

theorem protonPumpCalc_method (O : Oracle) (cc : CC) (s : List (String × ℚ))
    (errs : List RxnError) (params : CompartmentParams)
    (pcl : List (String × ℚ)) (innerC outerC : String) (mb : Membrane)
    (innerF outerF : Formula) :
    (protonPumpCalc O cc s errs params pcl innerC outerC mb innerF outerF).2.1.thermo.method
        = some Method.proton_pump ∨
      (protonPumpCalc O cc s errs params pcl innerC outerC mb innerF outerF).2.1.thermo.method
        = some Method.standard := by
  cases h : O.standardDg cc.p_h (stoich_to_formula s) with
  | ok vu => left; simp [protonPumpCalc, h]
  | error msg =>
    right
    simp only [protonPumpCalc, h]
    exact standardCalc_method ..

theorem protonPumpCalc_cc (O : Oracle) (cc : CC) (s : List (String × ℚ))
    (errs : List RxnError) (params : CompartmentParams)
    (pcl : List (String × ℚ)) (innerC outerC : String) (mb : Membrane)
    (innerF outerF : Formula) :
    (protonPumpCalc O cc s errs params pcl innerC outerC mb innerF outerF).1 = cc := by
  cases h : O.standardDg cc.p_h (stoich_to_formula s) with
  | ok vu => simp [protonPumpCalc, h]
  | error msg =>
    simp only [protonPumpCalc, h]
    exact standardCalc_cc ..

/-! ### C4: pure transport reactions -/

/-- C4.  A reaction whose net stoichiometry (coefficients summed per resolved
identifier, with entries of absolute value at most 1e-9 dropped) is empty gets
a cache entry with dG_prime = 0.0 and uncertainty = 0.0, and no external call
is made for it. -/
theorem C4_pure_transport (cfg : Config) (O : Oracle) (cc : CC) (rxn : Rxn)
    (h : buildStoichiometry cfg.lookup rxn = []) :
    (processReaction cfg O cc rxn).2.1.thermo.dG_prime = some 0 ∧
    (processReaction cfg O cc rxn).2.1.thermo.uncertainty = some 0 ∧
    (processReaction cfg O cc rxn).2.1.thermo.formula_queried
      = some FormulaQ.transport ∧
    (processReaction cfg O cc rxn).2.2 = [] := by
  unfold processReaction
  simp [h]

/-! ### Concrete fixtures for witnesses and counterexamples -/

/-- A small compound cache: two protons, a transported species A, three
ordinary species X, Y, Z, and a cytochrome couple CO/CR in two compartments. -/
def testLookup : Lookup := fun id =>
  if id = "h_c" ∨ id = "h_m" then some ⟨some PROTON_KEGG⟩
  else if id = "a_c" ∨ id = "a_m" then some ⟨some "kegg:A"⟩
  else if id = "x_c" then some ⟨some "kegg:X"⟩
  else if id = "y_m" then some ⟨some "kegg:Y"⟩
  else if id = "z_m" then some ⟨some "kegg:Z"⟩
  else if id = "co_c" ∨ id = "co_m" then some ⟨some "kegg:CO"⟩
  else if id = "cr_c" ∨ id = "cr_m" then some ⟨some "kegg:CR"⟩
  else none

def hC : Met := ⟨"h_c", "H+", "c"⟩

def hM : Met := ⟨"h_m", "H+", "m"⟩

def aC : Met := ⟨"a_c", "A", "c"⟩

def aM : Met := ⟨"a_m", "A", "m"⟩

def xC : Met := ⟨"x_c", "X", "c"⟩

def yM : Met := ⟨"y_m", "Y", "m"⟩

def zM : Met := ⟨"z_m", "Z", "m"⟩

def coC : Met := ⟨"co_c", "CytOx", "c"⟩

def crC : Met := ⟨"cr_c", "CytRed", "c"⟩

def coM : Met := ⟨"co_m", "CytOx", "m"⟩

def crM : Met := ⟨"cr_m", "CytRed", "m"⟩

/-- Compartment parameters: cytosol pH 6.8, mitochondrion pH 7.2, one
membrane with inner = m, outer = c at 180 mV, ionic strength 0.1 M. -/
def testParams : CompartmentParams :=
  ⟨[("c", 34 / 5), ("m", 36 / 5)], [("mito", ⟨"m", "c", 180⟩)], 1 / 10⟩

/-- One configured redox couple. -/
def testCouples : List (String × RedoxCouple) :=
  [("cyt", ⟨"kegg:CO", "kegg:CR", 250⟩)]

def cfgPlain : Config := ⟨testLookup, some testParams, []⟩

def cfgRedox : Config := ⟨testLookup, some testParams, testCouples⟩

/-- A service where every call succeeds with fixed numbers. -/
def okOracle : Oracle :=
  ⟨fun _ _ => .ok (5, 1), fun _ _ _ _ _ _ => .ok (3, 2), fun _ _ => .ok (4, 1)⟩

/-- A service whose multicompartmental endpoint raises. -/
def failMultiOracle : Oracle :=
  ⟨fun _ _ => .ok (5, 1), fun _ _ _ _ _ _ => .error "mc", fun _ _ => .ok (4, 1)⟩

/-- A service whose redox-carrier calculation raises. -/
def failRedoxOracle : Oracle :=
  ⟨fun _ _ => .ok (5, 1), fun _ _ _ _ _ _ => .ok (3, 2), fun _ _ => .error "rc"⟩

/-- Pure transport: A moves from c to m, coefficients cancel exactly. -/
def rxnTransport : Rxn := ⟨"rT", [(aC, -1), (aM, 1)]⟩

/-- A proton pump: X[c] consumed, Y[m] produced, one H+ moved from c to m;
the inner (m) half-reaction has only positive coefficients. -/
def rxnPump : Rxn := ⟨"rP", [(xC, -1), (yM, 1), (hC, -1), (hM, 1)]⟩

/-- A two-sided transmembrane reaction: both halves have substrates and
products, so it is routed multicompartmentally. -/
def rxnMulti : Rxn := ⟨"rM", [(xC, -1), (yM, 1), (zM, -1), (hC, -1), (hM, 1)]⟩

/-- Bare proton transport across the membrane: a transmembrane candidate
whose net stoichiometry is empty. -/
def rxnProtonOnly : Rxn := ⟨"rH", [(hC, -1), (hM, 1)]⟩

/-- An electron transfer: oxidized and reduced cytochrome both present. -/
def rxnRedox : Rxn := ⟨"rR", [(coC, -1), (crC, 1)]⟩

/-- Transport of both members of the couple: every coefficient cancels. -/
def rxnRedoxTransport : Rxn :=
  ⟨"rRT", [(coC, -1), (coM, 1), (crC, 1), (crM, -1)]⟩

/-- A reaction that is both an electron transfer and a two-sided
transmembrane proton reaction. -/
def rxnRedoxMulti : Rxn :=
  ⟨"rRM", [(coC, -1), (crC, 1), (xC, -1), (yM, 1), (zM, -1), (hC, -1), (hM, 1)]⟩

theorem C4_pure_transport_witness :
    buildStoichiometry cfgPlain.lookup rxnTransport = [] ∧
    ((processReaction cfgPlain okOracle defaultCC rxnTransport).2.1.thermo.dG_prime
        = some 0 ∧
      (processReaction cfgPlain okOracle defaultCC rxnTransport).2.1.thermo.uncertainty
        = some 0 ∧
      (processReaction cfgPlain okOracle defaultCC rxnTransport).2.1.thermo.formula_queried
        = some FormulaQ.transport ∧
      (processReaction cfgPlain okOracle defaultCC rxnTransport).2.2 = []) := by
  have h : buildStoichiometry cfgPlain.lookup rxnTransport = [] := by
    norm_num [buildStoichiometry, cfgPlain, testLookup, rxnTransport, aC, aM,
      accKey, filterSmall, eps, List.filter, lt_abs]
  exact ⟨h, C4_pure_transport cfgPlain okOracle defaultCC rxnTransport h⟩

/-! ### C1: proton-pump direction rule -/

/-- Unless a reaction is pure transport or successfully handled by the
redox-carrier method, its entry and final state are those of the membrane
classification step (with some accumulated error list). -/
theorem processReaction_to_membrane (cfg : Config) (O : Oracle) (cc : CC)
    (rxn : Rxn) :
    ((buildStoichiometry cfg.lookup rxn).isEmpty = true ∧
      (processReaction cfg O cc rxn).2.1.thermo.method = none ∧
      (processReaction cfg O cc rxn).1 = cc) ∨
    ((processReaction cfg O cc rxn).2.1.thermo.method
        = some Method.redox_carrier ∧
      (processReaction cfg O cc rxn).1 = cc) ∨
    (∃ errs : List RxnError,
      (processReaction cfg O cc rxn).2.1
          = (processMembrane cfg O cc rxn (buildStoichiometry cfg.lookup rxn)
              errs).2.1 ∧
        (processReaction cfg O cc rxn).1
          = (processMembrane cfg O cc rxn (buildStoichiometry cfg.lookup rxn)
              errs).1) := by
  by_cases hE : (buildStoichiometry cfg.lookup rxn).isEmpty
  · left
    refine ⟨hE, ?_, ?_⟩ <;> simp [processReaction, hE, Thermo.empty]
  · by_cases hR : (reaction_needs_redox cfg.lookup
        (load_redox_couples cfg.redox) rxn).isEmpty
    · right; right
      refine ⟨baseErrors cfg.lookup rxn, ?_, ?_⟩ <;>
        simp [processReaction, hE, hR]
    · cases hq : O.redoxDg cc.p_h
          (buildPhased cfg.lookup (load_redox_couples cfg.redox) rxn).1 with
      | ok vu =>
        right; left
        refine ⟨?_, ?_⟩ <;> simp [processReaction, hE, hR, hq]
      | error msg =>
        right; right
        refine ⟨baseErrors cfg.lookup rxn ++
          [.redox_carrier_error msg ((reaction_needs_redox cfg.lookup
            (load_redox_couples cfg.redox) rxn).map fun t => t.2.2.2)], ?_, ?_⟩ <;>
          simp [processReaction, hE, hR, hq]

/-- Proton-pump field characterization at the membrane step. -/
theorem processMembrane_pump_fields (cfg : Config) (O : Oracle) (cc : CC)
    (rxn : Rxn) (stoich : List (String × ℚ)) (errs : List RxnError)
    (params : CompartmentParams) (pcl : List (String × ℚ))
    (innerC outerC mkey : String) (mb : Membrane)
    (hparams : cfg.params = some params)
    (hpc : analyze_proton_compartments cfg.lookup rxn = some pcl)
    (htm : is_transmembrane_proton_reaction (some pcl) params.membranes
      = some (innerC, outerC, mkey))
    (hmb : lookupKey params.membranes mkey = some mb)
    (hroute : (processMembrane cfg O cc rxn stoich errs).2.1.thermo.method
      = some Method.proton_pump) :
    (processMembrane cfg O cc rxn stoich errs).2.1.thermo.dG_per_proton
        = some (dGPerProton mb.potential_mV (pHOf params innerC)
            (pHOf params outerC)) ∧
      (processMembrane cfg O cc rxn stoich errs).2.1.thermo.vectorial_protons
        = some (vectorialProtons
            (dGPerProton mb.potential_mV (pHOf params innerC) (pHOf params outerC))
            ((lookupKey pcl outerC).getD 0) ((lookupKey pcl innerC).getD 0)) ∧
      (processMembrane cfg O cc rxn stoich errs).2.1.thermo.dG_membrane
        = some (vectorialProtons
              (dGPerProton mb.potential_mV (pHOf params innerC) (pHOf params outerC))
              ((lookupKey pcl outerC).getD 0) ((lookupKey pcl innerC).getD 0)
            * dGPerProton mb.potential_mV (pHOf params innerC)
              (pHOf params outerC)) ∧
      (∃ chem : ℚ,
        (processMembrane cfg O cc rxn stoich errs).2.1.thermo.dG_chemistry
            = some chem ∧
          (processMembrane cfg O cc rxn stoich errs).2.1.thermo.dG_prime
            = some (chem +
                vectorialProtons
                  (dGPerProton mb.potential_mV (pHOf params innerC)
                    (pHOf params outerC))
                  ((lookupKey pcl outerC).getD 0) ((lookupKey pcl innerC).getD 0)
                * dGPerProton mb.potential_mV (pHOf params innerC)
                  (pHOf params outerC))) := by
  revert hroute
  unfold processMembrane
  simp only [hparams, hpc, htm, hmb, Option.getD_some]
  by_cases hcond :
      onlyProducts (build_half_reactions cfg.lookup rxn innerC outerC).2 ||
      onlyProducts (build_half_reactions cfg.lookup rxn innerC outerC).1
  · simp only [hcond, if_true]
    intro hroute
    cases hq : O.standardDg cc.p_h (stoich_to_formula stoich) with
    | ok vu =>
      refine ⟨?_, ?_, ?_, vu.1, ?_, ?_⟩ <;> simp [protonPumpCalc, hq]
    | error msg =>
      exfalso
      simp only [protonPumpCalc, hq] at hroute
      rw [standardCalc_method] at hroute
      exact absurd (Option.some.inj hroute) (by intro h; cases h)
  · simp only [hcond, Bool.false_eq_true, if_false]
    intro hroute
    exfalso
    rcases multiCalc_method O stoich errs params pcl innerC outerC mkey mb
        (stoich_to_formula (build_half_reactions cfg.lookup rxn innerC outerC).1)
        (stoich_to_formula (build_half_reactions cfg.lookup rxn innerC outerC).2)
      with hm | hm <;>
      (rw [hm] at hroute; exact absurd (Option.some.inj hroute) (by intro h; cases h))

/-- C1.  For every transmembrane reaction routed to the proton-pump method:
the per-proton energy is `F * delta_psi + RT_ln10 * (pH_outer - pH_inner)`
with `F = 96.485` and the potential in volts; the vectorial proton count is
the absolute net outer-compartment H+ coefficient when that energy is
negative and the absolute net inner-compartment H+ coefficient otherwise;
the membrane contribution added to the chemical dG is the vectorial count
times the per-proton energy.  In particular at 180 mV, inner pH 7.2 and
outer pH 6.8 the per-proton energy is positive, so the inner-appearing count
is used. -/
theorem C1_proton_pump_direction (cfg : Config) (O : Oracle) (cc : CC)
    (rxn : Rxn) (params : CompartmentParams) (pcl : List (String × ℚ))
    (innerC outerC mkey : String) (mb : Membrane)
    (hparams : cfg.params = some params)
    (hpc : analyze_proton_compartments cfg.lookup rxn = some pcl)
    (htm : is_transmembrane_proton_reaction (some pcl) params.membranes
      = some (innerC, outerC, mkey))
    (hmb : lookupKey params.membranes mkey = some mb)
    (hroute : (processReaction cfg O cc rxn).2.1.thermo.method
      = some Method.proton_pump) :
    ((processReaction cfg O cc rxn).2.1.thermo.dG_per_proton
        = some (dGPerProton mb.potential_mV (pHOf params innerC)
            (pHOf params outerC)) ∧
      (processReaction cfg O cc rxn).2.1.thermo.vectorial_protons
        = some (vectorialProtons
            (dGPerProton mb.potential_mV (pHOf params innerC) (pHOf params outerC))
            ((lookupKey pcl outerC).getD 0) ((lookupKey pcl innerC).getD 0)) ∧
      (processReaction cfg O cc rxn).2.1.thermo.dG_membrane
        = some (vectorialProtons
              (dGPerProton mb.potential_mV (pHOf params innerC) (pHOf params outerC))
              ((lookupKey pcl outerC).getD 0) ((lookupKey pcl innerC).getD 0)
            * dGPerProton mb.potential_mV (pHOf params innerC)
              (pHOf params outerC)) ∧
      (∃ chem : ℚ,
        (processReaction cfg O cc rxn).2.1.thermo.dG_chemistry = some chem ∧
          (processReaction cfg O cc rxn).2.1.thermo.dG_prime
            = some (chem +
                vectorialProtons
                  (dGPerProton mb.potential_mV (pHOf params innerC)
                    (pHOf params outerC))
                  ((lookupKey pcl outerC).getD 0) ((lookupKey pcl innerC).getD 0)
                * dGPerProton mb.potential_mV (pHOf params innerC)
                  (pHOf params outerC)))) ∧
    0 < dGPerProton 180 (36 / 5) (34 / 5) ∧
    (∀ a b : ℚ, vectorialProtons (dGPerProton 180 (36 / 5) (34 / 5)) a b = |b|) := by
  have hpos : 0 < dGPerProton 180 (36 / 5) (34 / 5) := by
    norm_num [dGPerProton, F, RT_ln10]
  refine ⟨?_, hpos, fun a b => ?_⟩
  · rcases processReaction_to_membrane cfg O cc rxn with
      ⟨_, hm, _⟩ | ⟨hm, _⟩ | ⟨errs, hEq, _⟩
    · rw [hm] at hroute; cases hroute
    · rw [hm] at hroute
      exact absurd (Option.some.inj hroute) (by intro h; cases h)
    · rw [hEq] at hroute ⊢
      exact processMembrane_pump_fields cfg O cc rxn
        (buildStoichiometry cfg.lookup rxn) errs params pcl innerC outerC mkey
        mb hparams hpc htm hmb hroute
  · unfold vectorialProtons
    rw [if_neg (by exact not_lt_of_gt hpos)]

theorem C1_proton_pump_direction_witness :
    cfgPlain.params = some testParams ∧
    analyze_proton_compartments cfgPlain.lookup rxnPump
      = some [("c", -1), ("m", 1)] ∧
    is_transmembrane_proton_reaction (some [("c", -1), ("m", 1)])
      testParams.membranes = some ("m", "c", "mito") ∧
    lookupKey testParams.membranes "mito" = some ⟨"m", "c", 180⟩ ∧
    (processReaction cfgPlain okOracle defaultCC rxnPump).2.1.thermo.method
      = some Method.proton_pump ∧
    (processReaction cfgPlain okOracle defaultCC rxnPump).2.1.thermo.dG_per_proton
      = some (dGPerProton 180 (36 / 5) (34 / 5)) ∧
    (processReaction cfgPlain okOracle defaultCC rxnPump).2.1.thermo.vectorial_protons
      = some (vectorialProtons (dGPerProton 180 (36 / 5) (34 / 5)) (-1) 1) ∧
    vectorialProtons (dGPerProton 180 (36 / 5) (34 / 5)) (-1) 1 = 1 := by
  have h1 : cfgPlain.params = some testParams := rfl
  have h2 : analyze_proton_compartments cfgPlain.lookup rxnPump
      = some [("c", -1), ("m", 1)] := by
    norm_num [analyze_proton_compartments, cfgPlain, testLookup, rxnPump, xC,
      yM, hC, hM, PROTON_KEGG, accKey, filterSmall, eps, List.filter, lt_abs]
  have h3 : is_transmembrane_proton_reaction (some [("c", -1), ("m", 1)])
      testParams.membranes = some ("m", "c", "mito") := by
    norm_num [is_transmembrane_proton_reaction, findMembrane, keys, testParams]
  have h4 : lookupKey testParams.membranes "mito" = some ⟨"m", "c", 180⟩ := by
    norm_num [lookupKey, testParams]
  have h5 : (processReaction cfgPlain okOracle defaultCC rxnPump).2.1.thermo.method
      = some Method.proton_pump := by
    norm_num [processReaction, processMembrane, protonPumpCalc, standardCalc,
      buildStoichiometry, baseErrors, analyze_proton_compartments,
      is_transmembrane_proton_reaction, findMembrane, keys,
      build_half_reactions, stoich_to_formula, reaction_needs_redox,
      load_redox_couples, couplesByName, keggsInRxn, insertNew, coupleActive,
      buildPhased, accPhased, insertCouple, cfgPlain, testLookup, rxnPump, xC,
      yM, hC, hM, PROTON_KEGG, accKey, filterSmall, eps, List.filter, lt_abs,
      lookupKey, setKey, updateKey, Thermo.empty, pHOf, testParams, okOracle,
      defaultCC, onlyProducts]
  have main := C1_proton_pump_direction cfgPlain okOracle defaultCC rxnPump
    testParams [("c", -1), ("m", 1)] "m" "c" "mito" ⟨"m", "c", 180⟩
    h1 h2 h3 h4 h5
  refine ⟨h1, h2, h3, h4, h5, ?_, ?_, ?_⟩
  · have h6 := main.1.1
    simpa [pHOf, testParams, lookupKey] using h6
  · have h7 := main.1.2.1
    simpa [pHOf, testParams, lookupKey] using h7
  · have hpos : ¬ dGPerProton 180 (36 / 5) (34 / 5) < 0 := by
      norm_num [dGPerProton, F, RT_ln10]
    unfold vectorialProtons
    rw [if_neg hpos]
    norm_num

/-! ### C10: proton identification -/

/-- The per-metabolite test of `analyze_proton_compartments`: the cache entry
exists and resolved to exactly the string "kegg:C00080". -/
def isProtonMet (lookup : Lookup) (m : Met) : Bool :=
  match lookup m.id with
  | some e => e.queried_as = some PROTON_KEGG
  | none => false

theorem protonFold_filter (lookup : Lookup) (l : List (Met × ℚ)) :
    ∀ acc : List (String × ℚ),
      l.foldl (fun acc mc =>
        match lookup mc.1.id with
        | some e =>
          if e.queried_as = some PROTON_KEGG then accKey acc mc.1.compartment mc.2
          else acc
        | none => acc) acc
      = (l.filter fun mc => isProtonMet lookup mc.1).foldl
          (fun acc mc => accKey acc mc.1.compartment mc.2) acc := by
  induction l with
  | nil => intro acc; rfl
  | cons mc rest ih =>
    intro acc
    by_cases hp : isProtonMet lookup mc.1
    · have hstep : (match lookup mc.1.id with
          | some e =>
            if e.queried_as = some PROTON_KEGG then accKey acc mc.1.compartment mc.2
            else acc
          | none => acc) = accKey acc mc.1.compartment mc.2 := by
        unfold isProtonMet at hp
        cases hl : lookup mc.1.id with
        | some e =>
          rw [hl] at hp
          simp only [decide_eq_true_eq] at hp
          simp [hp]
        | none => rw [hl] at hp; cases hp
      simp only [List.foldl_cons, List.filter_cons, hp, if_true, hstep, ih]
    · have hstep : (match lookup mc.1.id with
          | some e =>
            if e.queried_as = some PROTON_KEGG then accKey acc mc.1.compartment mc.2
            else acc
          | none => acc) = acc := by
        unfold isProtonMet at hp
        cases hl : lookup mc.1.id with
        | some e =>
          rw [hl] at hp
          simp only [decide_eq_true_eq] at hp
          simp [hp]
        | none => simp
      simp only [List.foldl_cons, List.filter_cons, hp, if_false, hstep, ih,
        Bool.false_eq_true]


theorem standardCalc_fields (O : Oracle) (cc : CC) (s : List (String × ℚ))
    (errs : List RxnError) :
    (standardCalc O cc s errs).2.1.thermo.membrane = none ∧
    (standardCalc O cc s errs).2.1.thermo.inner_compartment = none ∧
    (standardCalc O cc s errs).2.1.thermo.proton_stoichiometry = none := by
  cases h : O.standardDg cc.p_h (stoich_to_formula s) <;>
    simp [standardCalc, h, Thermo.empty]

theorem processMembrane_no_protons (cfg : Config) (O : Oracle) (cc : CC)
    (rxn : Rxn) (stoich : List (String × ℚ)) (errs : List RxnError)
    (h : analyze_proton_compartments cfg.lookup rxn = none) :
    processMembrane cfg O cc rxn stoich errs = standardCalc O cc stoich errs := by
  unfold processMembrane
  rw [h]
  cases cfg.params <;> rfl

/-- C10.  A metabolite is counted as H+ by the proton-compartment analysis
exactly when its cache entry's `queried_as` equals the string "kegg:C00080"
(the `isProtonMet` test); when no metabolite of the reaction passes that test
(e.g. the proton resolved through another namespace, or not at all), the
analysis returns `none` and the reaction gets no membrane treatment: the
membrane step degenerates to the standard calculation and the entry carries
neither a membrane method nor membrane diagnostics. -/
theorem C10_proton_identification (cfg : Config) (O : Oracle) (cc : CC)
    (rxn : Rxn) :
    (analyze_proton_compartments cfg.lookup rxn
      = (let m := filterSmall
          ((rxn.mets.filter fun mc => isProtonMet cfg.lookup mc.1).foldl
            (fun acc mc => accKey acc mc.1.compartment mc.2) [])
         if m.isEmpty then none else some m)) ∧
    ((∀ mc ∈ rxn.mets, isProtonMet cfg.lookup mc.1 = false) →
      analyze_proton_compartments cfg.lookup rxn = none ∧
      (∀ stoich errs,
        processMembrane cfg O cc rxn stoich errs = standardCalc O cc stoich errs) ∧
      (processReaction cfg O cc rxn).2.1.thermo.method ≠ some Method.proton_pump ∧
      (processReaction cfg O cc rxn).2.1.thermo.method
        ≠ some Method.multicompartmental ∧
      (processReaction cfg O cc rxn).2.1.thermo.method
        ≠ some Method.standardFallback ∧
      (processReaction cfg O cc rxn).2.1.thermo.membrane = none ∧
      (processReaction cfg O cc rxn).2.1.thermo.inner_compartment = none ∧
      (processReaction cfg O cc rxn).2.1.thermo.proton_stoichiometry = none) := by
  constructor
  · unfold analyze_proton_compartments
    rw [protonFold_filter]
  · intro h
    have hfil : rxn.mets.filter (fun mc => isProtonMet cfg.lookup mc.1) = [] :=
      List.filter_eq_nil_iff.mpr fun mc hmc => by simp [h mc hmc]
    have hnone : analyze_proton_compartments cfg.lookup rxn = none := by
      unfold analyze_proton_compartments
      rw [protonFold_filter, hfil]
      rfl
    have hmem : ∀ stoich errs,
        processMembrane cfg O cc rxn stoich errs = standardCalc O cc stoich errs :=
      fun stoich errs => processMembrane_no_protons cfg O cc rxn stoich errs hnone
    refine ⟨hnone, hmem, ?_⟩
    by_cases hE : (buildStoichiometry cfg.lookup rxn).isEmpty
    · refine ⟨?_, ?_, ?_, ?_, ?_, ?_⟩ <;> simp [processReaction, hE, Thermo.empty]
    · by_cases hR : (reaction_needs_redox cfg.lookup
          (load_redox_couples cfg.redox) rxn).isEmpty
      · have hpr : (processReaction cfg O cc rxn).2.1
            = (standardCalc O cc (buildStoichiometry cfg.lookup rxn)
                (baseErrors cfg.lookup rxn)).2.1 := by
          simp [processReaction, hE, hR, hmem]
        rw [hpr]
        refine ⟨?_, ?_, ?_, (standardCalc_fields ..).1,
          (standardCalc_fields ..).2.1, (standardCalc_fields ..).2.2⟩ <;>
          (rw [standardCalc_method]; simp)
      · cases hq : O.redoxDg cc.p_h
            (buildPhased cfg.lookup (load_redox_couples cfg.redox) rxn).1 with
        | ok vu =>
          refine ⟨?_, ?_, ?_, ?_, ?_, ?_⟩ <;>
            simp [processReaction, hE, hR, hq, Thermo.empty]
        | error msg =>
          have hpr : (processReaction cfg O cc rxn).2.1
              = (standardCalc O cc (buildStoichiometry cfg.lookup rxn)
                  (baseErrors cfg.lookup rxn ++
                    [.redox_carrier_error msg ((reaction_needs_redox cfg.lookup
                      (load_redox_couples cfg.redox) rxn).map
                        fun t => t.2.2.2)])).2.1 := by
            simp [processReaction, hE, hR, hq, hmem]
          rw [hpr]
          refine ⟨?_, ?_, ?_, (standardCalc_fields ..).1,
            (standardCalc_fields ..).2.1, (standardCalc_fields ..).2.2⟩ <;>
            (rw [standardCalc_method]; simp)

theorem C10_proton_identification_witness :
    (∀ mc ∈ rxnRedox.mets, isProtonMet cfgRedox.lookup mc.1 = false) ∧
    analyze_proton_compartments cfgRedox.lookup rxnRedox = none ∧
    (processReaction cfgRedox okOracle defaultCC rxnRedox).2.1.thermo.method
      ≠ some Method.proton_pump ∧
    (processReaction cfgRedox okOracle defaultCC rxnRedox).2.1.thermo.method
      ≠ some Method.multicompartmental ∧
    (processReaction cfgRedox okOracle defaultCC rxnRedox).2.1.thermo.membrane
      = none := by
  have h : ∀ mc ∈ rxnRedox.mets, isProtonMet cfgRedox.lookup mc.1 = false := by
    intro mc hmc
    simp only [rxnRedox, coC, crC, List.mem_cons, List.not_mem_nil, or_false]
      at hmc
    rcases hmc with h1 | h1 <;>
      simp [h1, isProtonMet, cfgRedox, testLookup, PROTON_KEGG]
  have main := (C10_proton_identification cfgRedox okOracle defaultCC rxnRedox).2 h
  exact ⟨h, main.1, main.2.2.1, main.2.2.2.1, main.2.2.2.2.2.1⟩

/-! ### C2: transmembrane splitting and pump/multicompartmental routing -/

/-- The resolved identifier of a metabolite, if its cache entry has one. -/
def resolvedId (lookup : Lookup) (m : Met) : Option String :=
  match lookup m.id with
  | some e => e.queried_as
  | none => none

theorem halfFold_filter (lookup : Lookup) (innerC outerC : String)
    (l : List (Met × ℚ)) :
    ∀ acc : List (String × ℚ) × List (String × ℚ),
      l.foldl (fun acc mc =>
        match lookup mc.1.id with
        | some e =>
          match e.queried_as with
          | some q =>
            if mc.1.compartment = innerC then (accKey acc.1 q mc.2, acc.2)
            else if mc.1.compartment = outerC then (acc.1, accKey acc.2 q mc.2)
            else acc
          | none => acc
        | none => acc) acc
      = ((l.filter fun mc =>
            (resolvedId lookup mc.1).isSome && mc.1.compartment = innerC).foldl
            (fun a mc => accKey a ((resolvedId lookup mc.1).getD "") mc.2) acc.1,
         (l.filter fun mc =>
            (resolvedId lookup mc.1).isSome && !(mc.1.compartment = innerC)
              && mc.1.compartment = outerC).foldl
            (fun a mc => accKey a ((resolvedId lookup mc.1).getD "") mc.2) acc.2) := by
  induction l with
  | nil => intro acc; rfl
  | cons mc rest ih =>
    intro acc
    have hstep : (match lookup mc.1.id with
        | some e =>
          match e.queried_as with
          | some q =>
            if mc.1.compartment = innerC then (accKey acc.1 q mc.2, acc.2)
            else if mc.1.compartment = outerC then (acc.1, accKey acc.2 q mc.2)
            else acc
          | none => acc
        | none => acc)
        = (match resolvedId lookup mc.1 with
          | some q =>
            if mc.1.compartment = innerC then (accKey acc.1 q mc.2, acc.2)
            else if mc.1.compartment = outerC then (acc.1, accKey acc.2 q mc.2)
            else acc
          | none => acc) := by
      unfold resolvedId
      cases lookup mc.1.id with
      | none => rfl
      | some e => cases e.queried_as <;> rfl
    simp only [List.foldl_cons, List.filter_cons, hstep]
    cases hres : resolvedId lookup mc.1 with
    | none => simp [ih]
    | some q =>
      by_cases hin : mc.1.compartment = innerC
      · simp [hres, hin, ih]
      · by_cases hout : mc.1.compartment = outerC
        · have hoi : ¬ outerC = innerC := fun hcontra => hin (hout.trans hcontra)
          simp [hres, hin, hout, hoi, ih]
        · simp [hres, hin, hout, ih]

/-- The half-reaction split drops every metabolite that is unresolved or
outside the two membrane compartments, and aggregates the rest per resolved
identifier in the matching half. -/
theorem build_half_reactions_filter (lookup : Lookup) (rxn : Rxn)
    (innerC outerC : String) :
    build_half_reactions lookup rxn innerC outerC
      = (filterSmall ((rxn.mets.filter fun mc =>
            (resolvedId lookup mc.1).isSome && mc.1.compartment = innerC).foldl
            (fun a mc => accKey a ((resolvedId lookup mc.1).getD "") mc.2) []),
         filterSmall ((rxn.mets.filter fun mc =>
            (resolvedId lookup mc.1).isSome && !(mc.1.compartment = innerC)
              && mc.1.compartment = outerC).foldl
            (fun a mc => accKey a ((resolvedId lookup mc.1).getD "") mc.2) [])) := by
  unfold build_half_reactions
  rw [halfFold_filter]

theorem standardCalc_errors_mono (O : Oracle) (cc : CC)
    (s : List (String × ℚ)) (errs : List RxnError) (e : RxnError)
    (he : e ∈ errs) : e ∈ (standardCalc O cc s errs).2.1.errors := by
  cases h : O.standardDg cc.p_h (stoich_to_formula s) <;>
    simp [standardCalc, h, he]

theorem protonPumpCalc_attempt (O : Oracle) (cc : CC) (s : List (String × ℚ))
    (errs : List RxnError) (params : CompartmentParams)
    (pcl : List (String × ℚ)) (innerC outerC : String) (mb : Membrane)
    (innerF outerF : Formula) :
    (protonPumpCalc O cc s errs params pcl innerC outerC mb innerF outerF).2.1.thermo.method
        = some Method.proton_pump ∨
      ∃ msg, RxnError.proton_pump_error msg innerF outerF
        ∈ (protonPumpCalc O cc s errs params pcl innerC outerC mb innerF outerF).2.1.errors := by
  cases h : O.standardDg cc.p_h (stoich_to_formula s) with
  | ok vu => left; simp [protonPumpCalc, h]
  | error msg =>
    right
    refine ⟨msg, ?_⟩
    simp only [protonPumpCalc, h]
    exact standardCalc_errors_mono O cc s _ _ (by simp)

theorem multiCalc_attempt (O : Oracle) (s : List (String × ℚ))
    (errs : List RxnError) (params : CompartmentParams)
    (pcl : List (String × ℚ)) (innerC outerC mkey : String) (mb : Membrane)
    (innerF outerF : Formula) :
    (multiCalc O s errs params pcl innerC outerC mkey mb innerF outerF).2.1.thermo.method
        = some Method.multicompartmental ∨
      ((multiCalc O s errs params pcl innerC outerC mkey mb innerF outerF).2.1.thermo.method
          = some Method.standardFallback ∧
        ∃ msg, RxnError.multicompartmental_error msg
          ∈ (multiCalc O s errs params pcl innerC outerC mkey mb innerF outerF).2.1.errors) := by
  cases h : O.multiDg (pHOf params innerC) innerF outerF (mb.potential_mV / 1000)
      (pHOf params outerC) params.ionic_strength with
  | ok vu => left; simp [multiCalc, h]
  | error msg =>
    right
    cases h2 : O.standardDg (pHOf params innerC) (stoich_to_formula s) <;>
      (refine ⟨?_, msg, ?_⟩ <;> simp [multiCalc, h, h2])

/-- C2 (amended).  For a reaction that reaches the membrane step with a
matched membrane, the stoichiometry is split into inner- and outer-compartment
halves by `build_half_reactions` (dropping metabolites that are unresolved or
outside both compartments); the proton-pump method is attempted exactly when
either half is nonempty with only product terms, the multicompartmental method
otherwise. -/
theorem C2_transmembrane_routing (cfg : Config) (O : Oracle) (cc : CC)
    (rxn : Rxn) (stoich : List (String × ℚ)) (errs : List RxnError)
    (params : CompartmentParams) (pcl : List (String × ℚ))
    (innerC outerC mkey : String)
    (hparams : cfg.params = some params)
    (hpc : analyze_proton_compartments cfg.lookup rxn = some pcl)
    (htm : is_transmembrane_proton_reaction (some pcl) params.membranes
      = some (innerC, outerC, mkey)) :
    (build_half_reactions cfg.lookup rxn innerC outerC
      = (filterSmall ((rxn.mets.filter fun mc =>
            (resolvedId cfg.lookup mc.1).isSome && mc.1.compartment = innerC).foldl
            (fun a mc => accKey a ((resolvedId cfg.lookup mc.1).getD "") mc.2) []),
         filterSmall ((rxn.mets.filter fun mc =>
            (resolvedId cfg.lookup mc.1).isSome && !(mc.1.compartment = innerC)
              && mc.1.compartment = outerC).foldl
            (fun a mc => accKey a ((resolvedId cfg.lookup mc.1).getD "") mc.2) []))) ∧
    ((onlyProducts (build_half_reactions cfg.lookup rxn innerC outerC).2 ||
        onlyProducts (build_half_reactions cfg.lookup rxn innerC outerC).1) = true →
      ((processMembrane cfg O cc rxn stoich errs).2.1.thermo.method
          = some Method.proton_pump ∨
        ∃ msg, RxnError.proton_pump_error msg
            (stoich_to_formula (build_half_reactions cfg.lookup rxn innerC outerC).1)
            (stoich_to_formula (build_half_reactions cfg.lookup rxn innerC outerC).2)
          ∈ (processMembrane cfg O cc rxn stoich errs).2.1.errors)) ∧
    ((onlyProducts (build_half_reactions cfg.lookup rxn innerC outerC).2 ||
        onlyProducts (build_half_reactions cfg.lookup rxn innerC outerC).1) = false →
      ((processMembrane cfg O cc rxn stoich errs).2.1.thermo.method
          = some Method.multicompartmental ∨
        ((processMembrane cfg O cc rxn stoich errs).2.1.thermo.method
            = some Method.standardFallback ∧
          ∃ msg, RxnError.multicompartmental_error msg
            ∈ (processMembrane cfg O cc rxn stoich errs).2.1.errors))) := by
  refine ⟨build_half_reactions_filter .., ?_, ?_⟩
  · intro hcond
    unfold processMembrane
    simp only [hparams, hpc, htm, hcond, if_true]
    exact protonPumpCalc_attempt ..
  · intro hcond
    unfold processMembrane
    simp only [hparams, hpc, htm, hcond, Bool.false_eq_true, if_false]
    exact multiCalc_attempt ..

/-- C2 counterexample: bare transmembrane proton transport is a transmembrane
candidate (net H+ in both compartments of a configured membrane) yet is routed
to neither proton_pump nor multicompartmental — its net stoichiometry is
empty, so it takes the transport short-circuit with no method tag at all. -/
theorem C2_counterexample :
    is_transmembrane_proton_reaction
        (analyze_proton_compartments cfgPlain.lookup rxnProtonOnly)
        (membranesOf cfgPlain.params) = some ("m", "c", "mito") ∧
    (processReaction cfgPlain okOracle defaultCC rxnProtonOnly).2.1.thermo.method
      = none ∧
    (processReaction cfgPlain okOracle defaultCC rxnProtonOnly).2.1.thermo.dG_prime
      = some 0 ∧
    (processReaction cfgPlain okOracle defaultCC rxnProtonOnly).2.2 = [] := by
  have hE : (buildStoichiometry cfgPlain.lookup rxnProtonOnly).isEmpty = true := by
    norm_num [buildStoichiometry, cfgPlain, testLookup, rxnProtonOnly, hC, hM,
      accKey, filterSmall, eps, List.filter, lt_abs]
  refine ⟨?_, ?_, ?_, ?_⟩
  · norm_num [analyze_proton_compartments, is_transmembrane_proton_reaction,
      findMembrane, keys, cfgPlain, testLookup, rxnProtonOnly, hC, hM,
      PROTON_KEGG, accKey, filterSmall, eps, List.filter, lt_abs, membranesOf,
      testParams]
  · simp [processReaction, hE, Thermo.empty]
  · simp [processReaction, hE, Thermo.empty]
  · simp [processReaction, hE]

theorem C2_transmembrane_routing_witness :
    cfgPlain.params = some testParams ∧
    analyze_proton_compartments cfgPlain.lookup rxnPump
      = some [("c", -1), ("m", 1)] ∧
    is_transmembrane_proton_reaction (some [("c", -1), ("m", 1)])
      testParams.membranes = some ("m", "c", "mito") ∧
    (onlyProducts (build_half_reactions cfgPlain.lookup rxnPump "m" "c").2 ||
      onlyProducts (build_half_reactions cfgPlain.lookup rxnPump "m" "c").1) = true ∧
    ((processMembrane cfgPlain okOracle defaultCC rxnPump
        (buildStoichiometry cfgPlain.lookup rxnPump) []).2.1.thermo.method
        = some Method.proton_pump ∨
      ∃ msg, RxnError.proton_pump_error msg
          (stoich_to_formula (build_half_reactions cfgPlain.lookup rxnPump "m" "c").1)
          (stoich_to_formula (build_half_reactions cfgPlain.lookup rxnPump "m" "c").2)
        ∈ (processMembrane cfgPlain okOracle defaultCC rxnPump
            (buildStoichiometry cfgPlain.lookup rxnPump) []).2.1.errors) := by
  have h1 : cfgPlain.params = some testParams := rfl
  have h2 : analyze_proton_compartments cfgPlain.lookup rxnPump
      = some [("c", -1), ("m", 1)] := by
    norm_num [analyze_proton_compartments, cfgPlain, testLookup, rxnPump, xC,
      yM, hC, hM, PROTON_KEGG, accKey, filterSmall, eps, List.filter, lt_abs]
  have h3 : is_transmembrane_proton_reaction (some [("c", -1), ("m", 1)])
      testParams.membranes = some ("m", "c", "mito") := by
    norm_num [is_transmembrane_proton_reaction, findMembrane, keys, testParams]
  have h4 : (onlyProducts (build_half_reactions cfgPlain.lookup rxnPump "m" "c").2 ||
      onlyProducts (build_half_reactions cfgPlain.lookup rxnPump "m" "c").1) = true := by
    norm_num [onlyProducts, build_half_reactions, cfgPlain, testLookup, rxnPump,
      xC, yM, hC, hM, accKey, filterSmall, eps, List.filter, lt_abs]
  exact ⟨h1, h2, h3, h4,
    (C2_transmembrane_routing cfgPlain okOracle defaultCC rxnPump
      (buildStoichiometry cfgPlain.lookup rxnPump) [] testParams
      [("c", -1), ("m", 1)] "m" "c" "mito" h1 h2 h3).2.1 h4⟩

/-! ### C3: redox routing — association-list lemmas -/

theorem lookupKey_not_mem {α : Type} (l : List (String × α)) (k : String)
    (h : k ∉ keys l) : lookupKey l k = none := by
  induction l with
  | nil => rfl
  | cons p rest ih =>
    obtain ⟨k', v'⟩ := p
    simp only [keys, List.map_cons, List.mem_cons, not_or] at h
    have hne : ¬ k' = k := fun hc => h.1 hc.symm
    simp only [lookupKey, if_neg hne]
    exact ih (by simpa [keys] using h.2)

theorem lookupKey_append_right {α : Type} (l1 l2 : List (String × α))
    (k : String) (h : k ∉ keys l1) :
    lookupKey (l1 ++ l2) k = lookupKey l2 k := by
  induction l1 with
  | nil => rfl
  | cons p rest ih =>
    obtain ⟨k', v'⟩ := p
    simp only [keys, List.map_cons, List.mem_cons, not_or] at h
    have hne : ¬ k' = k := fun hc => h.1 hc.symm
    simp only [List.cons_append, lookupKey, if_neg hne]
    exact ih (by simpa [keys] using h.2)

theorem setKey_not_mem {α : Type} (l : List (String × α)) (k : String) (v : α)
    (h : k ∉ keys l) : setKey l k v = l ++ [(k, v)] := by
  induction l with
  | nil => rfl
  | cons p rest ih =>
    obtain ⟨k', v'⟩ := p
    simp only [keys, List.map_cons, List.mem_cons, not_or] at h
    have hne : ¬ k' = k := fun hc => h.1 hc.symm
    simp only [setKey, if_neg hne, List.cons_append, List.cons.injEq, true_and]
    exact ih (by simpa [keys] using h.2)

theorem updateKey_append {α : Type} (l1 l2 : List (String × α)) (k : String)
    (f : α → α) (h : k ∉ keys l1) :
    updateKey (l1 ++ l2) k f = l1 ++ updateKey l2 k f := by
  induction l1 with
  | nil => rfl
  | cons p rest ih =>
    obtain ⟨k', v'⟩ := p
    simp only [keys, List.map_cons, List.mem_cons, not_or] at h
    have hne : ¬ k' = k := fun hc => h.1 hc.symm
    simp only [List.cons_append, updateKey, if_neg hne, List.cons.injEq,
      true_and]
    exact ih (by simpa [keys] using h.2)

/-- The two flat lookup entries `load_redox_couples` writes for one couple. -/
def couplePair (p : String × RedoxCouple) : List (String × Bool × ℚ × String) :=
  [(p.2.oxidized_kegg, (false, p.2.potential_mV, p.1)),
   (p.2.reduced_kegg, (true, p.2.potential_mV, p.1))]

/-- The member identifiers of the configured couples, in write order. -/
def coupleKeggs (cfg : List (String × RedoxCouple)) : List String :=
  cfg.flatMap fun p => [p.2.oxidized_kegg, p.2.reduced_kegg]

theorem load_redox_flat_aux (cfg : List (String × RedoxCouple)) :
    ∀ acc : List (String × Bool × ℚ × String),
      (∀ k ∈ coupleKeggs cfg, k ∉ keys acc) → (coupleKeggs cfg).Nodup →
      cfg.foldl (fun acc p =>
        setKey (setKey acc p.2.oxidized_kegg (false, p.2.potential_mV, p.1))
          p.2.reduced_kegg (true, p.2.potential_mV, p.1)) acc
      = acc ++ cfg.flatMap couplePair := by
  induction cfg with
  | nil => intro acc _ _; simp
  | cons p rest ih =>
    intro acc hdisj hnodup
    have hshape : coupleKeggs (p :: rest)
        = p.2.oxidized_kegg :: p.2.reduced_kegg :: coupleKeggs rest := rfl
    rw [hshape] at hdisj hnodup
    obtain ⟨hox_not, hnodup2⟩ := List.nodup_cons.mp hnodup
    obtain ⟨hred_not, hnodupRest⟩ := List.nodup_cons.mp hnodup2
    have hox : p.2.oxidized_kegg ∉ keys acc := hdisj _ (by simp)
    have hred : p.2.reduced_kegg ∉ keys acc := hdisj _ (by simp)
    have hredox : ¬ p.2.reduced_kegg = p.2.oxidized_kegg := fun hc =>
      hox_not (by simp [hc])
    have hred2 : p.2.reduced_kegg
        ∉ keys (acc ++ [(p.2.oxidized_kegg, (false, p.2.potential_mV, p.1))]) := by
      simp only [keys, List.map_append, List.mem_append, List.map_cons,
        List.map_nil, List.mem_cons, List.not_mem_nil, or_false, not_or]
      exact ⟨hred, hredox⟩
    have hdisjRest : ∀ k ∈ coupleKeggs rest,
        k ∉ keys ((acc ++ [(p.2.oxidized_kegg, (false, p.2.potential_mV, p.1))])
          ++ [(p.2.reduced_kegg, (true, p.2.potential_mV, p.1))]) := by
      intro k hk
      simp only [keys, List.map_append, List.mem_append, List.map_cons,
        List.map_nil, List.mem_cons, List.not_mem_nil, or_false, not_or]
      refine ⟨⟨hdisj k (by simp [hk]), ?_⟩, ?_⟩
      · exact fun hc => hox_not (List.mem_cons_of_mem _ (hc ▸ hk))
      · exact fun hc => hred_not (hc ▸ hk)
    simp only [List.foldl_cons]
    rw [setKey_not_mem _ _ _ hox, setKey_not_mem _ _ _ hred2,
      ih _ hdisjRest hnodupRest]
    simp [couplePair]

/-- Under pairwise-distinct member identifiers, the redox lookup dict is the
flat list of per-couple entries. -/
theorem load_redox_flat (cfg : List (String × RedoxCouple))
    (h : (coupleKeggs cfg).Nodup) :
    load_redox_couples cfg = cfg.flatMap couplePair := by
  unfold load_redox_couples
  rw [load_redox_flat_aux cfg [] (by intro k _ hc; cases hc) h]
  rfl

theorem couplesByName_flat_aux (cfg : List (String × RedoxCouple)) :
    ∀ acc : List (String × CoupleInfo),
      (∀ n ∈ cfg.map (·.1), n ∉ keys acc) → (cfg.map (·.1)).Nodup →
      (cfg.flatMap couplePair).foldl (fun acc p => insertCouple acc p.1 p.2) acc
      = acc ++ cfg.map fun p =>
          (p.1, (⟨p.2.potential_mV, some p.2.oxidized_kegg,
            some p.2.reduced_kegg⟩ : CoupleInfo)) := by
  induction cfg with
  | nil => intro acc _ _; simp
  | cons p rest ih =>
    intro acc hdisj hnodup
    simp only [List.map_cons] at hnodup
    obtain ⟨hn_not, hnodupRest⟩ := List.nodup_cons.mp hnodup
    have hn : p.1 ∉ keys acc := hdisj _ (by simp)
    have hstep1 : insertCouple acc p.2.oxidized_kegg
          (false, p.2.potential_mV, p.1)
        = acc ++ [(p.1, (⟨p.2.potential_mV, some p.2.oxidized_kegg, none⟩ :
            CoupleInfo))] := by
      simp [insertCouple, lookupKey_not_mem acc p.1 hn, updateKey_append,
        hn, updateKey]
    have hn2 : p.1 ∉ keys (acc ++ []) := by simpa using hn
    have hstep2 : insertCouple
          (acc ++ [(p.1, (⟨p.2.potential_mV, some p.2.oxidized_kegg, none⟩ :
            CoupleInfo))])
          p.2.reduced_kegg (true, p.2.potential_mV, p.1)
        = acc ++ [(p.1, (⟨p.2.potential_mV, some p.2.oxidized_kegg,
            some p.2.reduced_kegg⟩ : CoupleInfo))] := by
      have hlook : lookupKey
          (acc ++ [(p.1, (⟨p.2.potential_mV, some p.2.oxidized_kegg, none⟩ :
            CoupleInfo))]) p.1
          = some (⟨p.2.potential_mV, some p.2.oxidized_kegg, none⟩ :
            CoupleInfo) := by
        rw [lookupKey_append_right _ _ _ hn]
        simp [lookupKey]
      simp [insertCouple, hlook, updateKey_append, hn, updateKey]
    have hdisjRest : ∀ n ∈ rest.map (·.1),
        n ∉ keys (acc ++ [(p.1, (⟨p.2.potential_mV, some p.2.oxidized_kegg,
          some p.2.reduced_kegg⟩ : CoupleInfo))]) := by
      intro n hnm
      simp only [keys, List.map_append, List.mem_append, List.map_cons,
        List.map_nil, List.mem_cons, List.not_mem_nil, or_false, not_or]
      exact ⟨hdisj n (by simp [hnm]), fun hc => hn_not (hc ▸ hnm)⟩
    have hflat : (p :: rest).flatMap couplePair
        = (p.2.oxidized_kegg, (false, p.2.potential_mV, p.1))
          :: (p.2.reduced_kegg, (true, p.2.potential_mV, p.1))
          :: rest.flatMap couplePair := rfl
    rw [hflat]
    simp only [List.foldl_cons]
    rw [hstep1, hstep2, ih _ hdisjRest hnodupRest]
    simp

/-- Under distinct couple names and member identifiers, `couples_by_name`
recovers exactly the configured couples. -/
theorem couplesByName_flat (cfg : List (String × RedoxCouple))
    (hk : (coupleKeggs cfg).Nodup) (hn : (cfg.map (·.1)).Nodup) :
    couplesByName (load_redox_couples cfg)
      = cfg.map fun p =>
          (p.1, (⟨p.2.potential_mV, some p.2.oxidized_kegg,
            some p.2.reduced_kegg⟩ : CoupleInfo)) := by
  unfold couplesByName
  rw [load_redox_flat cfg hk,
    couplesByName_flat_aux cfg [] (by intro n _ hc; cases hc) hn]
  rfl

theorem insertNew_mem (l : List String) (s q : String) :
    q ∈ insertNew l s ↔ q ∈ l ∨ q = s := by
  unfold insertNew
  by_cases h : s ∈ l
  · simp only [if_pos h]
    constructor
    · exact Or.inl
    · rintro (hq | rfl)
      · exact hq
      · exact h
  · simp [if_neg h, List.mem_append]

theorem keggsInRxn_mem_aux (lookup : Lookup) (l : List (Met × ℚ)) :
    ∀ (acc : List String) (q : String),
      q ∈ l.foldl (fun acc mc =>
        match lookup mc.1.id with
        | some e =>
          match e.queried_as with
          | some q => insertNew acc q
          | none => acc
        | none => acc) acc
      ↔ q ∈ acc ∨ ∃ mc ∈ l, resolvedId lookup mc.1 = some q := by
  induction l with
  | nil => intro acc q; simp
  | cons mc rest ih =>
    intro acc q
    have hstep : ∀ a : List String, (match lookup mc.1.id with
        | some e =>
          match e.queried_as with
          | some q => insertNew a q
          | none => a
        | none => a)
        = (match resolvedId lookup mc.1 with
          | some q => insertNew a q
          | none => a) := by
      intro a
      unfold resolvedId
      cases lookup mc.1.id with
      | none => rfl
      | some e => cases e.queried_as <;> rfl
    simp only [List.foldl_cons, hstep]
    cases hres : resolvedId lookup mc.1 with
    | none =>
      rw [ih]
      simp [hres]
    | some q' =>
      rw [ih]
      simp only [insertNew_mem, List.mem_cons, hres]
      constructor
      · rintro ((hq | rfl) | ⟨mc', hmc', hres'⟩)
        · exact Or.inl hq
        · exact Or.inr ⟨mc, Or.inl rfl, hres⟩
        · exact Or.inr ⟨mc', Or.inr hmc', hres'⟩
      · rintro (hq | ⟨mc', hmc' | hmc', hres'⟩)
        · exact Or.inl (Or.inl hq)
        · rw [hmc'] at hres'
          rw [hres] at hres'
          exact Or.inl (Or.inr (Option.some.inj hres').symm)
        · exact Or.inr ⟨mc', hmc', hres'⟩

/-- Membership in the resolved-identifier set of a reaction. -/
theorem keggsInRxn_mem (lookup : Lookup) (rxn : Rxn) (q : String) :
    q ∈ keggsInRxn lookup rxn
      ↔ ∃ mc ∈ rxn.mets, resolvedId lookup mc.1 = some q := by
  unfold keggsInRxn
  rw [keggsInRxn_mem_aux]
  simp

theorem foldl_append_flatMap {α β : Type} (g : α → List β) (l : List α) :
    ∀ acc : List β,
      l.foldl (fun acc x => acc ++ g x) acc = acc ++ l.flatMap g := by
  induction l with
  | nil => intro acc; simp
  | cons x rest ih =>
    intro acc
    simp only [List.foldl_cons, ih, List.flatMap_cons, List.append_assoc]

/-- The per-metabolite selection of the second pass of
`reaction_needs_redox`. -/
def redoxPick (lookup : Lookup) (redoxLk : List (String × Bool × ℚ × String))
    (complete : List String) (mc : Met × ℚ) :
    List (String × Bool × ℚ × String) :=
  match lookup mc.1.id with
  | some e =>
    match e.queried_as with
    | some kegg =>
      match lookupKey redoxLk kegg with
      | some ipc => if ipc.2.2 ∈ complete then [(kegg, ipc)] else []
      | none => []
    | none => []
  | none => []

/-- Closed form of `reaction_needs_redox`: empty when no couple is complete,
otherwise the concatenation of the per-metabolite selections. -/
theorem needs_redox_eq (lookup : Lookup)
    (redoxLk : List (String × Bool × ℚ × String)) (rxn : Rxn) :
    reaction_needs_redox lookup redoxLk rxn
      = (if (((couplesByName redoxLk).filter
            fun p => coupleActive p.2 (keggsInRxn lookup rxn)).map (·.1)).isEmpty
         then []
         else rxn.mets.flatMap (redoxPick lookup redoxLk
           (((couplesByName redoxLk).filter
             fun p => coupleActive p.2 (keggsInRxn lookup rxn)).map (·.1)))) := by
  unfold reaction_needs_redox
  by_cases hc : (((couplesByName redoxLk).filter
      fun p => coupleActive p.2 (keggsInRxn lookup rxn)).map (·.1)).isEmpty
  · simp [hc]
  · simp only [hc, Bool.false_eq_true, if_false]
    have hfun : (fun (acc : List (String × Bool × ℚ × String)) (mc : Met × ℚ) =>
        (match lookup mc.1.id with
        | some e =>
          match e.queried_as with
          | some kegg =>
            match lookupKey redoxLk kegg with
            | some (isRed, pot, cname) =>
              if cname ∈ (((couplesByName redoxLk).filter
                  fun p => coupleActive p.2 (keggsInRxn lookup rxn)).map (·.1))
              then acc ++ [(kegg, isRed, pot, cname)] else acc
            | none => acc
          | none => acc
        | none => acc))
        = fun acc mc => acc ++ redoxPick lookup redoxLk
            (((couplesByName redoxLk).filter
              fun p => coupleActive p.2 (keggsInRxn lookup rxn)).map (·.1)) mc := by
      funext acc mc
      unfold redoxPick
      cases hl : lookup mc.1.id with
      | none => simp
      | some e =>
        cases hq : e.queried_as with
        | none => simp [hq]
        | some kegg =>
          cases hlk : lookupKey redoxLk kegg with
          | none => simp [hq, hlk]
          | some ipc =>
            obtain ⟨isRed, pot, cname⟩ := ipc
            by_cases hmem : cname ∈ (((couplesByName redoxLk).filter
                fun p => coupleActive p.2 (keggsInRxn lookup rxn)).map (·.1)) <;>
              simp [hq, hlk, hmem]
    rw [hfun, foldl_append_flatMap]
    rfl

/-- In the flat lookup list, a configured couple's oxidized member maps to its
oxidized entry and its reduced member to its reduced entry. -/
theorem lookupKey_flat (cfg : List (String × RedoxCouple))
    (hk : (coupleKeggs cfg).Nodup) (p : String × RedoxCouple) (hp : p ∈ cfg) :
    lookupKey (cfg.flatMap couplePair) p.2.oxidized_kegg
        = some (false, p.2.potential_mV, p.1) ∧
      lookupKey (cfg.flatMap couplePair) p.2.reduced_kegg
        = some (true, p.2.potential_mV, p.1) := by
  induction cfg with
  | nil => cases hp
  | cons q rest ih =>
    have hshape : coupleKeggs (q :: rest)
        = q.2.oxidized_kegg :: q.2.reduced_kegg :: coupleKeggs rest := rfl
    rw [hshape] at hk
    obtain ⟨hox_not, hk2⟩ := List.nodup_cons.mp hk
    obtain ⟨hred_not, hkRest⟩ := List.nodup_cons.mp hk2
    have hflat : (q :: rest).flatMap couplePair
        = (q.2.oxidized_kegg, (false, q.2.potential_mV, q.1))
          :: (q.2.reduced_kegg, (true, q.2.potential_mV, q.1))
          :: rest.flatMap couplePair := rfl
    rcases List.mem_cons.mp hp with rfl | hp'
    · have hne : ¬ p.2.oxidized_kegg = p.2.reduced_kegg := fun hc =>
        hox_not (by rw [hc]; exact List.mem_cons_self _ _)
      rw [hflat]
      constructor
      · simp [lookupKey]
      · simp [lookupKey, hne]
    · have hoxm : p.2.oxidized_kegg ∈ coupleKeggs rest := by
        simp only [coupleKeggs, List.mem_flatMap]
        exact ⟨p, hp', by simp⟩
      have hredm : p.2.reduced_kegg ∈ coupleKeggs rest := by
        simp only [coupleKeggs, List.mem_flatMap]
        exact ⟨p, hp', by simp⟩
      have h1 : ¬ q.2.oxidized_kegg = p.2.oxidized_kegg := fun hc =>
        hox_not (List.mem_cons_of_mem _ (hc ▸ hoxm))
      have h2 : ¬ q.2.reduced_kegg = p.2.oxidized_kegg := fun hc =>
        hred_not (hc ▸ hoxm)
      have h3 : ¬ q.2.oxidized_kegg = p.2.reduced_kegg := fun hc =>
        hox_not (List.mem_cons_of_mem _ (hc ▸ hredm))
      have h4 : ¬ q.2.reduced_kegg = p.2.reduced_kegg := fun hc =>
        hred_not (hc ▸ hredm)
      rw [hflat]
      constructor
      · simp only [lookupKey, if_neg h1, if_neg h2]
        exact (ih hkRest hp').1
      · simp only [lookupKey, if_neg h3, if_neg h4]
        exact (ih hkRest hp').2

/-- A configured couple with both members among the reaction's resolved
identifiers. -/
def coupleBothPresent (lookup : Lookup) (rxn : Rxn) (c : RedoxCouple) : Prop :=
  c.oxidized_kegg ∈ keggsInRxn lookup rxn ∧
    c.reduced_kegg ∈ keggsInRxn lookup rxn

theorem resolvedId_eq_some (lookup : Lookup) (m : Met) (q : String)
    (h : resolvedId lookup m = some q) :
    ∃ e, lookup m.id = some e ∧ e.queried_as = some q := by
  unfold resolvedId at h
  cases hl : lookup m.id with
  | none => rw [hl] at h; cases h
  | some e => rw [hl] at h; exact ⟨e, rfl, h⟩

/-- Under a well-formed couple configuration, `reaction_needs_redox` is
nonempty exactly when some configured couple has both members present. -/
theorem needs_redox_iff (cfg : List (String × RedoxCouple)) (lookup : Lookup)
    (rxn : Rxn) (hk : (coupleKeggs cfg).Nodup) (hn : (cfg.map (·.1)).Nodup) :
    reaction_needs_redox lookup (load_redox_couples cfg) rxn ≠ []
      ↔ ∃ p ∈ cfg, coupleBothPresent lookup rxn p.2 := by
  rw [needs_redox_eq, couplesByName_flat cfg hk hn]
  constructor
  · intro hne
    by_cases hc : (((cfg.map fun p =>
        (p.1, (⟨p.2.potential_mV, some p.2.oxidized_kegg,
          some p.2.reduced_kegg⟩ : CoupleInfo))).filter
        fun p => coupleActive p.2 (keggsInRxn lookup rxn)).map (·.1)).isEmpty
    · rw [if_pos hc] at hne
      exact absurd rfl hne
    · have hnn : ((cfg.map fun p =>
          (p.1, (⟨p.2.potential_mV, some p.2.oxidized_kegg,
            some p.2.reduced_kegg⟩ : CoupleInfo))).filter
          fun p => coupleActive p.2 (keggsInRxn lookup rxn)).map (·.1) ≠ [] := by
        intro hnil
        exact hc (by rw [hnil]; rfl)
      rcases List.exists_mem_of_ne_nil _ hnn with ⟨x, hx⟩
      rcases List.mem_map.mp hx with ⟨pr, hpr, _⟩
      rcases List.mem_filter.mp hpr with ⟨hprm, hact⟩
      rcases List.mem_map.mp hprm with ⟨p, hp, hpeq⟩
      refine ⟨p, hp, ?_, ?_⟩ <;>
        (rw [← hpeq] at hact
         simp only [coupleActive, decide_eq_true_eq, Bool.and_eq_true] at hact)
      · exact hact.1
      · exact hact.2
  · rintro ⟨p, hp, hox, hred⟩
    have hact : coupleActive
        (⟨p.2.potential_mV, some p.2.oxidized_kegg,
          some p.2.reduced_kegg⟩ : CoupleInfo) (keggsInRxn lookup rxn) = true := by
      simp [coupleActive, hox, hred]
    have hfil : (p.1, (⟨p.2.potential_mV, some p.2.oxidized_kegg,
        some p.2.reduced_kegg⟩ : CoupleInfo)) ∈ ((cfg.map fun p =>
          (p.1, (⟨p.2.potential_mV, some p.2.oxidized_kegg,
            some p.2.reduced_kegg⟩ : CoupleInfo))).filter
          fun pr => coupleActive pr.2 (keggsInRxn lookup rxn)) :=
      List.mem_filter.mpr ⟨List.mem_map_of_mem _ hp, hact⟩
    have hcomp : p.1 ∈ ((cfg.map fun p =>
        (p.1, (⟨p.2.potential_mV, some p.2.oxidized_kegg,
          some p.2.reduced_kegg⟩ : CoupleInfo))).filter
        fun pr => coupleActive pr.2 (keggsInRxn lookup rxn)).map (·.1) :=
      List.mem_map_of_mem _ hfil
    have hc : (((cfg.map fun p =>
        (p.1, (⟨p.2.potential_mV, some p.2.oxidized_kegg,
          some p.2.reduced_kegg⟩ : CoupleInfo))).filter
        fun pr => coupleActive pr.2 (keggsInRxn lookup rxn)).map (·.1)).isEmpty
        = false := by
      cases hl : ((cfg.map fun p =>
          (p.1, (⟨p.2.potential_mV, some p.2.oxidized_kegg,
            some p.2.reduced_kegg⟩ : CoupleInfo))).filter
          fun pr => coupleActive pr.2 (keggsInRxn lookup rxn)).map (·.1) with
      | nil => rw [hl] at hcomp; cases hcomp
      | cons a l => simp
    rw [hc]
    simp only [Bool.false_eq_true, if_false]
    rcases (keggsInRxn_mem lookup rxn p.2.oxidized_kegg).mp hox with
      ⟨mc, hmc, hres⟩
    have hlk : lookupKey (load_redox_couples cfg) p.2.oxidized_kegg
        = some (false, p.2.potential_mV, p.1) := by
      rw [load_redox_flat cfg hk]
      exact (lookupKey_flat cfg hk p hp).1
    have hpick : redoxPick lookup (load_redox_couples cfg)
        (((cfg.map fun p =>
          (p.1, (⟨p.2.potential_mV, some p.2.oxidized_kegg,
            some p.2.reduced_kegg⟩ : CoupleInfo))).filter
          fun pr => coupleActive pr.2 (keggsInRxn lookup rxn)).map (·.1)) mc
        = [(p.2.oxidized_kegg, false, p.2.potential_mV, p.1)] := by
      rcases resolvedId_eq_some lookup mc.1 _ hres with ⟨e, hl2, hq⟩
      unfold redoxPick
      simp only [hl2, hq, hlk, if_pos hcomp]
    exact List.ne_nil_of_mem (List.mem_flatMap.mpr
      ⟨mc, hmc, by rw [hpick]; exact List.mem_singleton.mpr rfl⟩)

/-- Tag predicate for redox-carrier error records. -/
def isRedoxError : RxnError → Bool
  | .redox_carrier_error _ _ => true
  | _ => false

theorem baseErrors_not_redox (lookup : Lookup) (rxn : Rxn) :
    ∀ e ∈ baseErrors lookup rxn, isRedoxError e = false := by
  intro e he
  unfold baseErrors at he
  rcases List.mem_append.mp he with h | h <;>
    (split at h <;> simp_all [isRedoxError])

theorem standardCalc_errors (O : Oracle) (cc : CC) (s : List (String × ℚ))
    (errs : List RxnError) :
    ∀ e ∈ (standardCalc O cc s errs).2.1.errors,
      e ∈ errs ∨ isRedoxError e = false := by
  intro e he
  cases h : O.standardDg cc.p_h (stoich_to_formula s) with
  | ok vu =>
    simp only [standardCalc, h] at he
    exact Or.inl he
  | error m =>
    simp only [standardCalc, h] at he
    rcases List.mem_append.mp he with h2 | h2
    · exact Or.inl h2
    · right
      simp only [List.mem_singleton] at h2
      rw [h2]
      rfl

/-- The membrane step always delegates to one of the three calculators. -/
theorem processMembrane_cases (cfg : Config) (O : Oracle) (cc : CC) (rxn : Rxn)
    (stoich : List (String × ℚ)) (errs : List RxnError) :
    processMembrane cfg O cc rxn stoich errs = standardCalc O cc stoich errs ∨
    (∃ params pcl innerC outerC mb innerF outerF,
      cfg.params = some params ∧
      processMembrane cfg O cc rxn stoich errs
        = protonPumpCalc O cc stoich errs params pcl innerC outerC mb innerF
            outerF) ∨
    (∃ params pcl innerC outerC mkey mb innerF outerF,
      cfg.params = some params ∧
      processMembrane cfg O cc rxn stoich errs
        = multiCalc O stoich errs params pcl innerC outerC mkey mb innerF
            outerF) := by
  unfold processMembrane
  cases hp : cfg.params with
  | none => left; rfl
  | some params =>
    cases hpc : analyze_proton_compartments cfg.lookup rxn with
    | none => left; rfl
    | some pcl =>
      dsimp only
      cases htm : is_transmembrane_proton_reaction (some pcl) params.membranes
        with
      | none => left; rfl
      | some iok =>
        dsimp only
        by_cases hcond :
            (onlyProducts (build_half_reactions cfg.lookup rxn iok.1 iok.2.1).2
              || onlyProducts
                (build_half_reactions cfg.lookup rxn iok.1 iok.2.1).1) = true
        · right; left
          rw [if_pos hcond]
          exact ⟨params, pcl, iok.1, iok.2.1, _, _, _, rfl, rfl⟩
        · right; right
          rw [if_neg hcond]
          exact ⟨params, pcl, iok.1, iok.2.1, iok.2.2, _, _, _, rfl, rfl⟩

theorem protonPumpCalc_errors (O : Oracle) (cc : CC) (s : List (String × ℚ))
    (errs : List RxnError) (params : CompartmentParams)
    (pcl : List (String × ℚ)) (innerC outerC : String) (mb : Membrane)
    (innerF outerF : Formula) :
    ∀ e ∈ (protonPumpCalc O cc s errs params pcl innerC outerC mb innerF
        outerF).2.1.errors,
      e ∈ errs ∨ isRedoxError e = false := by
  intro e he
  cases h : O.standardDg cc.p_h (stoich_to_formula s) with
  | ok vu =>
    simp only [protonPumpCalc, h] at he
    exact Or.inl he
  | error msg =>
    simp only [protonPumpCalc, h] at he
    rcases standardCalc_errors O cc s _ e he with h2 | h2
    · rcases List.mem_append.mp h2 with h3 | h3
      · exact Or.inl h3
      · right
        simp only [List.mem_singleton] at h3
        rw [h3]
        rfl
    · exact Or.inr h2

theorem multiCalc_errors (O : Oracle) (s : List (String × ℚ))
    (errs : List RxnError) (params : CompartmentParams)
    (pcl : List (String × ℚ)) (innerC outerC mkey : String) (mb : Membrane)
    (innerF outerF : Formula) :
    ∀ e ∈ (multiCalc O s errs params pcl innerC outerC mkey mb innerF
        outerF).2.1.errors,
      e ∈ errs ∨ isRedoxError e = false := by
  intro e he
  cases h : O.multiDg (pHOf params innerC) innerF outerF (mb.potential_mV / 1000)
      (pHOf params outerC) params.ionic_strength with
  | ok vu =>
    simp only [multiCalc, h] at he
    exact Or.inl he
  | error msg =>
    cases h2 : O.standardDg (pHOf params innerC) (stoich_to_formula s) with
    | ok vu =>
      simp only [multiCalc, h, h2] at he
      rcases List.mem_append.mp he with h3 | h3
      · exact Or.inl h3
      · right
        simp only [List.mem_singleton] at h3
        rw [h3]
        rfl
    | error m2 =>
      simp only [multiCalc, h, h2] at he
      rcases List.mem_append.mp he with h3 | h3
      · rcases List.mem_append.mp h3 with h4 | h4
        · exact Or.inl h4
        · right
          simp only [List.mem_singleton] at h4
          rw [h4]
          rfl
      · right
        simp only [List.mem_singleton] at h3
        rw [h3]
        rfl

theorem processMembrane_errors (cfg : Config) (O : Oracle) (cc : CC)
    (rxn : Rxn) (stoich : List (String × ℚ)) (errs : List RxnError) :
    ∀ e ∈ (processMembrane cfg O cc rxn stoich errs).2.1.errors,
      e ∈ errs ∨ isRedoxError e = false := by
  rcases processMembrane_cases cfg O cc rxn stoich errs with h | ⟨p, pc, iC, oC,
      mb, iF, oF, _, h⟩ | ⟨p, pc, iC, oC, mk, mb, iF, oF, _, h⟩ <;> rw [h]
  · exact standardCalc_errors O cc stoich errs
  · exact protonPumpCalc_errors O cc stoich errs p pc iC oC mb iF oF
  · exact multiCalc_errors O stoich errs p pc iC oC mk mb iF oF

theorem processMembrane_method_ne_redox (cfg : Config) (O : Oracle) (cc : CC)
    (rxn : Rxn) (stoich : List (String × ℚ)) (errs : List RxnError) :
    (processMembrane cfg O cc rxn stoich errs).2.1.thermo.method
      ≠ some Method.redox_carrier := by
  rcases processMembrane_cases cfg O cc rxn stoich errs with h | ⟨p, pc, iC, oC,
      mb, iF, oF, _, h⟩ | ⟨p, pc, iC, oC, mk, mb, iF, oF, _, h⟩ <;> rw [h]
  · rw [standardCalc_method]
    simp
  · rcases protonPumpCalc_method O cc stoich errs p pc iC oC mb iF oF with
      h2 | h2 <;> (rw [h2]; simp)
  · rcases multiCalc_method O stoich errs p pc iC oC mk mb iF oF with
      h2 | h2 <;> (rw [h2]; simp)

theorem protonPumpCalc_errors_mono (O : Oracle) (cc : CC)
    (s : List (String × ℚ)) (errs : List RxnError)
    (params : CompartmentParams) (pcl : List (String × ℚ))
    (innerC outerC : String) (mb : Membrane) (innerF outerF : Formula)
    (e : RxnError) (he : e ∈ errs) :
    e ∈ (protonPumpCalc O cc s errs params pcl innerC outerC mb innerF
      outerF).2.1.errors := by
  cases h : O.standardDg cc.p_h (stoich_to_formula s) with
  | ok vu => simp [protonPumpCalc, h, he]
  | error msg =>
    simp only [protonPumpCalc, h]
    exact standardCalc_errors_mono O cc s _ e (by simp [he])

theorem multiCalc_errors_mono (O : Oracle) (s : List (String × ℚ))
    (errs : List RxnError) (params : CompartmentParams)
    (pcl : List (String × ℚ)) (innerC outerC mkey : String) (mb : Membrane)
    (innerF outerF : Formula) (e : RxnError) (he : e ∈ errs) :
    e ∈ (multiCalc O s errs params pcl innerC outerC mkey mb innerF
      outerF).2.1.errors := by
  cases h : O.multiDg (pHOf params innerC) innerF outerF (mb.potential_mV / 1000)
      (pHOf params outerC) params.ionic_strength with
  | ok vu => simp [multiCalc, h, he]
  | error msg =>
    cases h2 : O.standardDg (pHOf params innerC) (stoich_to_formula s) <;>
      simp [multiCalc, h, h2, he]

theorem processMembrane_errors_mono (cfg : Config) (O : Oracle) (cc : CC)
    (rxn : Rxn) (stoich : List (String × ℚ)) (errs : List RxnError)
    (e : RxnError) (he : e ∈ errs) :
    e ∈ (processMembrane cfg O cc rxn stoich errs).2.1.errors := by
  rcases processMembrane_cases cfg O cc rxn stoich errs with h | ⟨p, pc, iC, oC,
      mb, iF, oF, _, h⟩ | ⟨p, pc, iC, oC, mk, mb, iF, oF, _, h⟩ <;> rw [h]
  · exact standardCalc_errors_mono O cc stoich errs e he
  · exact protonPumpCalc_errors_mono O cc stoich errs p pc iC oC mb iF oF e he
  · exact multiCalc_errors_mono O stoich errs p pc iC oC mk mb iF oF e he

/-- C3 (amended).  Under a well-formed redox configuration (pairwise-distinct
member identifiers and couple names), the redox-carrier method is attempted —
leaving either the redox_carrier method tag or a redox_carrier_error record —
exactly when the net stoichiometry is nonempty and at least one configured
couple has BOTH its oxidized and its reduced identifier among the reaction's
resolved identifiers; in particular a reaction in which no couple has both
members present is never routed to redox_carrier. -/
theorem C3_redox_routing (cfg : Config) (O : Oracle) (cc : CC) (rxn : Rxn)
    (hk : (coupleKeggs cfg.redox).Nodup) (hn : (cfg.redox.map (·.1)).Nodup) :
    (((processReaction cfg O cc rxn).2.1.thermo.method
          = some Method.redox_carrier ∨
        ∃ e ∈ (processReaction cfg O cc rxn).2.1.errors, isRedoxError e = true)
      ↔ ((buildStoichiometry cfg.lookup rxn).isEmpty = false ∧
          ∃ p ∈ cfg.redox, coupleBothPresent cfg.lookup rxn p.2)) ∧
    ((∀ p ∈ cfg.redox, ¬ coupleBothPresent cfg.lookup rxn p.2) →
      (processReaction cfg O cc rxn).2.1.thermo.method
        ≠ some Method.redox_carrier) := by
  have hiff := needs_redox_iff cfg.redox cfg.lookup rxn hk hn
  have hmain : ((processReaction cfg O cc rxn).2.1.thermo.method
        = some Method.redox_carrier ∨
      ∃ e ∈ (processReaction cfg O cc rxn).2.1.errors, isRedoxError e = true)
      ↔ ((buildStoichiometry cfg.lookup rxn).isEmpty = false ∧
        ∃ p ∈ cfg.redox, coupleBothPresent cfg.lookup rxn p.2) := by
    by_cases hE : (buildStoichiometry cfg.lookup rxn).isEmpty
    · have hm : (processReaction cfg O cc rxn).2.1.thermo.method = none := by
        simp [processReaction, hE, Thermo.empty]
      have herr : (processReaction cfg O cc rxn).2.1.errors
          = baseErrors cfg.lookup rxn := by
        simp [processReaction, hE]
      constructor
      · rintro (hml | ⟨e, he, hre⟩)
        · rw [hm] at hml; cases hml
        · rw [herr] at he
          rw [baseErrors_not_redox cfg.lookup rxn e he] at hre
          cases hre
      · rintro ⟨hne', _⟩
        rw [hE] at hne'
        cases hne'
    · by_cases hR : (reaction_needs_redox cfg.lookup
          (load_redox_couples cfg.redox) rxn).isEmpty
      · have hRempty : reaction_needs_redox cfg.lookup
            (load_redox_couples cfg.redox) rxn = [] := by
          cases hl : reaction_needs_redox cfg.lookup
              (load_redox_couples cfg.redox) rxn with
          | nil => rfl
          | cons a l => rw [hl] at hR; cases hR
        have hnot : ¬ ∃ p ∈ cfg.redox, coupleBothPresent cfg.lookup rxn p.2 :=
          fun hex => (hiff.mpr hex) hRempty
        have hpr : (processReaction cfg O cc rxn).2.1
            = (processMembrane cfg O cc rxn (buildStoichiometry cfg.lookup rxn)
                (baseErrors cfg.lookup rxn)).2.1 := by
          simp [processReaction, hE, hR]
        constructor
        · rintro (hml | ⟨e, he, hre⟩)
          · rw [hpr] at hml
            exact absurd hml (processMembrane_method_ne_redox cfg O cc rxn
              (buildStoichiometry cfg.lookup rxn) (baseErrors cfg.lookup rxn))
          · rw [hpr] at he
            rcases processMembrane_errors cfg O cc rxn _ _ e he with h2 | h2
            · rw [baseErrors_not_redox cfg.lookup rxn e h2] at hre
              cases hre
            · rw [h2] at hre
              cases hre
        · rintro ⟨_, hex⟩
          exact absurd hex hnot
      · have hhne : reaction_needs_redox cfg.lookup
            (load_redox_couples cfg.redox) rxn ≠ [] := by
          intro hnil
          rw [hnil] at hR
          exact hR rfl
        have hex := hiff.mp hhne
        have hEf : (buildStoichiometry cfg.lookup rxn).isEmpty = false := by
          cases hb : (buildStoichiometry cfg.lookup rxn).isEmpty with
          | false => rfl
          | true => exact absurd hb hE
        constructor
        · intro _
          exact ⟨hEf, hex⟩
        · intro _
          cases hq : O.redoxDg cc.p_h
              (buildPhased cfg.lookup (load_redox_couples cfg.redox) rxn).1 with
          | ok vu =>
            left
            simp [processReaction, hE, hR, hq]
          | error msg =>
            right
            refine ⟨RxnError.redox_carrier_error msg
              ((reaction_needs_redox cfg.lookup (load_redox_couples cfg.redox)
                rxn).map fun t => t.2.2.2), ?_, rfl⟩
            have hpr : (processReaction cfg O cc rxn).2.1
                = (processMembrane cfg O cc rxn
                    (buildStoichiometry cfg.lookup rxn)
                    (baseErrors cfg.lookup rxn ++
                      [RxnError.redox_carrier_error msg
                        ((reaction_needs_redox cfg.lookup
                          (load_redox_couples cfg.redox) rxn).map
                            fun t => t.2.2.2)])).2.1 := by
              simp [processReaction, hE, hR, hq]
            rw [hpr]
            exact processMembrane_errors_mono cfg O cc rxn _ _ _ (by simp)
  refine ⟨hmain, fun hforall hml => ?_⟩
  rcases hmain.mp (Or.inl hml) with ⟨_, p, hp, hbp⟩
  exact hforall p hp hbp

/-- C3 counterexample: a reaction transporting both members of the configured
couple across the membrane has both identifiers present (the couple is
"active" in the claim's sense) yet is never routed to redox_carrier, because
its net stoichiometry cancels to empty and the transport short-circuit fires
first. -/
theorem C3_counterexample :
    (∃ p ∈ cfgRedox.redox,
      coupleBothPresent cfgRedox.lookup rxnRedoxTransport p.2) ∧
    (processReaction cfgRedox okOracle defaultCC rxnRedoxTransport).2.1.thermo.method
      = none ∧
    (processReaction cfgRedox okOracle defaultCC rxnRedoxTransport).2.1.thermo.couples_used
      = none ∧
    (processReaction cfgRedox okOracle defaultCC rxnRedoxTransport).2.2 = [] := by
  have hE : (buildStoichiometry cfgRedox.lookup rxnRedoxTransport).isEmpty
      = true := by
    norm_num [buildStoichiometry, cfgRedox, testLookup, rxnRedoxTransport, coC,
      coM, crC, crM, accKey, filterSmall, eps, List.filter, lt_abs]
  refine ⟨⟨("cyt", ⟨"kegg:CO", "kegg:CR", 250⟩), by simp [cfgRedox, testCouples],
    ?_, ?_⟩, ?_, ?_, ?_⟩
  · rw [keggsInRxn_mem]
    exact ⟨(coC, -1), by simp [rxnRedoxTransport],
      by simp [resolvedId, coC, cfgRedox, testLookup]⟩
  · rw [keggsInRxn_mem]
    exact ⟨(crC, 1), by simp [rxnRedoxTransport],
      by simp [resolvedId, crC, cfgRedox, testLookup]⟩
  · simp [processReaction, hE, Thermo.empty]
  · simp [processReaction, hE, Thermo.empty]
  · simp [processReaction, hE]

theorem C3_redox_routing_witness :
    (coupleKeggs cfgRedox.redox).Nodup ∧
    (cfgRedox.redox.map (·.1)).Nodup ∧
    (((processReaction cfgRedox okOracle defaultCC rxnRedox).2.1.thermo.method
          = some Method.redox_carrier ∨
        ∃ e ∈ (processReaction cfgRedox okOracle defaultCC rxnRedox).2.1.errors,
          isRedoxError e = true)
      ↔ ((buildStoichiometry cfgRedox.lookup rxnRedox).isEmpty = false ∧
          ∃ p ∈ cfgRedox.redox,
            coupleBothPresent cfgRedox.lookup rxnRedox p.2)) := by
  have hk : (coupleKeggs cfgRedox.redox).Nodup := by
    simp [coupleKeggs, cfgRedox, testCouples]
  have hn : (cfgRedox.redox.map (·.1)).Nodup := by
    simp [cfgRedox, testCouples]
  exact ⟨hk, hn,
    (C3_redox_routing cfgRedox okOracle defaultCC rxnRedox hk hn).1⟩

/-! ### C6: redox-carrier failure handling -/

theorem standardCalc_formula (O : Oracle) (cc : CC) (s : List (String × ℚ))
    (errs : List RxnError) :
    (standardCalc O cc s errs).2.1.thermo.formula_queried
      = some (FormulaQ.std (stoich_to_formula s)) := by
  cases h : O.standardDg cc.p_h (stoich_to_formula s) <;>
    simp [standardCalc, h]

/-- C6 (amended).  When the redox-carrier calculation of a reaction with an
active couple fails, a redox_carrier_error record naming the attempted couples
is appended and the reaction falls through to the remaining classification
(the transmembrane check, then standard); when the reaction has no proton
compartments it is submitted to the standard service with the full
net-stoichiometry formula. -/
theorem C6_redox_failure_fallthrough (cfg : Config) (O : Oracle) (cc : CC)
    (rxn : Rxn) (msg : String)
    (hE : (buildStoichiometry cfg.lookup rxn).isEmpty = false)
    (hR : (reaction_needs_redox cfg.lookup (load_redox_couples cfg.redox)
      rxn).isEmpty = false)
    (hq : O.redoxDg cc.p_h
        (buildPhased cfg.lookup (load_redox_couples cfg.redox) rxn).1
      = .error msg) :
    RxnError.redox_carrier_error msg
        ((reaction_needs_redox cfg.lookup (load_redox_couples cfg.redox)
          rxn).map fun t => t.2.2.2)
      ∈ (processReaction cfg O cc rxn).2.1.errors ∧
    (processReaction cfg O cc rxn).2.1
      = (processMembrane cfg O cc rxn (buildStoichiometry cfg.lookup rxn)
          (baseErrors cfg.lookup rxn ++
            [RxnError.redox_carrier_error msg
              ((reaction_needs_redox cfg.lookup (load_redox_couples cfg.redox)
                rxn).map fun t => t.2.2.2)])).2.1 ∧
    (analyze_proton_compartments cfg.lookup rxn = none →
      (processReaction cfg O cc rxn).2.1.thermo.method = some Method.standard ∧
      (processReaction cfg O cc rxn).2.1.thermo.formula_queried
        = some (FormulaQ.std
            (stoich_to_formula (buildStoichiometry cfg.lookup rxn)))) := by
  have hpr : (processReaction cfg O cc rxn).2.1
      = (processMembrane cfg O cc rxn (buildStoichiometry cfg.lookup rxn)
          (baseErrors cfg.lookup rxn ++
            [RxnError.redox_carrier_error msg
              ((reaction_needs_redox cfg.lookup (load_redox_couples cfg.redox)
                rxn).map fun t => t.2.2.2)])).2.1 := by
    simp [processReaction, hE, hR, hq]
  refine ⟨?_, hpr, ?_⟩
  · rw [hpr]
    exact processMembrane_errors_mono cfg O cc rxn _ _ _ (by simp)
  · intro hpc
    rw [hpr, processMembrane_no_protons cfg O cc rxn _ _ hpc]
    exact ⟨standardCalc_method .., standardCalc_formula ..⟩

/-- C6 counterexample: a reaction that is both an electron transfer and a
two-sided transmembrane proton reaction records the redox failure but is then
routed multicompartmentally — not to the standard method with the full
formula, as the claim states. -/
theorem C6_counterexample :
    (processReaction cfgRedox failRedoxOracle defaultCC rxnRedoxMulti).2.1.errors
      = [RxnError.redox_carrier_error "rc" ["cyt", "cyt"]] ∧
    (processReaction cfgRedox failRedoxOracle defaultCC rxnRedoxMulti).2.1.thermo.method
      = some Method.multicompartmental ∧
    (processReaction cfgRedox failRedoxOracle defaultCC rxnRedoxMulti).2.1.thermo.method
      ≠ some Method.standard := by
  have hstoich : buildStoichiometry cfgRedox.lookup rxnRedoxMulti
      = [("kegg:CO", -1), ("kegg:CR", 1), ("kegg:X", -1), ("kegg:Y", 1),
         ("kegg:Z", -1)] := by
    norm_num [buildStoichiometry, cfgRedox, testLookup, rxnRedoxMulti, coC,
      crC, xC, yM, zM, hC, hM, accKey, filterSmall, eps, List.filter, lt_abs]
  have hE : (buildStoichiometry cfgRedox.lookup rxnRedoxMulti).isEmpty
      = false := by
    rw [hstoich]
    rfl
  have hRlist : reaction_needs_redox cfgRedox.lookup
      (load_redox_couples cfgRedox.redox) rxnRedoxMulti
      = [("kegg:CO", false, 250, "cyt"), ("kegg:CR", true, 250, "cyt")] := by
    simp [reaction_needs_redox, load_redox_couples, couplesByName,
      keggsInRxn, insertNew, coupleActive, insertCouple, cfgRedox, testLookup,
      testCouples, rxnRedoxMulti, coC, crC, xC, yM, zM, hC, hM, lookupKey,
      setKey, updateKey, List.filter, PROTON_KEGG]
  have hR : (reaction_needs_redox cfgRedox.lookup
      (load_redox_couples cfgRedox.redox) rxnRedoxMulti).isEmpty = false := by
    rw [hRlist]
    rfl
  have hq : failRedoxOracle.redoxDg defaultCC.p_h
      (buildPhased cfgRedox.lookup (load_redox_couples cfgRedox.redox)
        rxnRedoxMulti).1 = .error "rc" := rfl
  have hbase : baseErrors cfgRedox.lookup rxnRedoxMulti = [] := by
    simp [baseErrors, cfgRedox, testLookup, rxnRedoxMulti, coC, crC, xC,
      yM, zM, hC, hM, List.filter]
  have hpr : (processReaction cfgRedox failRedoxOracle defaultCC
      rxnRedoxMulti).2.1
      = (processMembrane cfgRedox failRedoxOracle defaultCC rxnRedoxMulti
          (buildStoichiometry cfgRedox.lookup rxnRedoxMulti)
          (baseErrors cfgRedox.lookup rxnRedoxMulti ++
            [RxnError.redox_carrier_error "rc"
              ((reaction_needs_redox cfgRedox.lookup
                (load_redox_couples cfgRedox.redox) rxnRedoxMulti).map
                  fun t => t.2.2.2)])).2.1 := by
    simp [processReaction, hE, hR, hq]
  have herrsX : baseErrors cfgRedox.lookup rxnRedoxMulti ++
      [RxnError.redox_carrier_error "rc"
        ((reaction_needs_redox cfgRedox.lookup
          (load_redox_couples cfgRedox.redox) rxnRedoxMulti).map
            fun t => t.2.2.2)]
      = [RxnError.redox_carrier_error "rc" ["cyt", "cyt"]] := by
    rw [hbase, hRlist]
    rfl
  have hpc : analyze_proton_compartments cfgRedox.lookup rxnRedoxMulti
      = some [("c", -1), ("m", 1)] := by
    norm_num [analyze_proton_compartments, cfgRedox, testLookup, rxnRedoxMulti,
      coC, crC, xC, yM, zM, hC, hM, PROTON_KEGG, accKey, filterSmall, eps,
      List.filter, lt_abs]
  have htm : is_transmembrane_proton_reaction (some [("c", -1), ("m", 1)])
      testParams.membranes = some ("m", "c", "mito") := by
    norm_num [is_transmembrane_proton_reaction, findMembrane, keys, testParams]
  have hhalves : build_half_reactions cfgRedox.lookup rxnRedoxMulti "m" "c"
      = ([("kegg:Y", 1), ("kegg:Z", -1), ("kegg:C00080", 1)],
         [("kegg:CO", -1), ("kegg:CR", 1), ("kegg:X", -1),
          ("kegg:C00080", -1)]) := by
    norm_num [build_half_reactions, cfgRedox, testLookup, rxnRedoxMulti, coC,
      crC, xC, yM, zM, hC, hM, accKey, filterSmall, eps, List.filter, lt_abs,
      PROTON_KEGG]
  have hcond : (onlyProducts
        (build_half_reactions cfgRedox.lookup rxnRedoxMulti "m" "c").2 ||
      onlyProducts
        (build_half_reactions cfgRedox.lookup rxnRedoxMulti "m" "c").1)
      = false := by
    rw [hhalves]
    norm_num [onlyProducts, List.all]
  have hparams : cfgRedox.params = some testParams := rfl
  have hmem : ∀ errsX : List RxnError,
      processMembrane cfgRedox failRedoxOracle defaultCC rxnRedoxMulti
        (buildStoichiometry cfgRedox.lookup rxnRedoxMulti) errsX
      = multiCalc failRedoxOracle
          (buildStoichiometry cfgRedox.lookup rxnRedoxMulti) errsX testParams
          [("c", -1), ("m", 1)] "m" "c" "mito"
          ((lookupKey testParams.membranes "mito").getD ⟨"", "", 0⟩)
          (stoich_to_formula
            (build_half_reactions cfgRedox.lookup rxnRedoxMulti "m" "c").1)
          (stoich_to_formula
            (build_half_reactions cfgRedox.lookup rxnRedoxMulti "m" "c").2) := by
    intro errsX
    unfold processMembrane
    rw [hparams, hpc]
    dsimp only
    rw [htm]
    dsimp only
    rw [if_neg (by rw [hcond]; exact Bool.false_ne_true)]
  have hok : failRedoxOracle.multiDg (pHOf testParams "m")
      (stoich_to_formula
        (build_half_reactions cfgRedox.lookup rxnRedoxMulti "m" "c").1)
      (stoich_to_formula
        (build_half_reactions cfgRedox.lookup rxnRedoxMulti "m" "c").2)
      (((lookupKey testParams.membranes "mito").getD
        ⟨"", "", 0⟩).potential_mV / 1000)
      (pHOf testParams "c") testParams.ionic_strength = .ok (3, 2) := rfl
  have hmethod : (processReaction cfgRedox failRedoxOracle defaultCC
      rxnRedoxMulti).2.1.thermo.method = some Method.multicompartmental := by
    rw [hpr, hmem]
    simp [multiCalc, hok]
  refine ⟨?_, hmethod, by rw [hmethod]; simp⟩
  rw [hpr, hmem]
  simp [multiCalc, hok, herrsX]

theorem C6_redox_failure_fallthrough_witness :
    (buildStoichiometry cfgRedox.lookup rxnRedox).isEmpty = false ∧
    (reaction_needs_redox cfgRedox.lookup (load_redox_couples cfgRedox.redox)
      rxnRedox).isEmpty = false ∧
    analyze_proton_compartments cfgRedox.lookup rxnRedox = none ∧
    RxnError.redox_carrier_error "rc"
        ((reaction_needs_redox cfgRedox.lookup
          (load_redox_couples cfgRedox.redox) rxnRedox).map fun t => t.2.2.2)
      ∈ (processReaction cfgRedox failRedoxOracle defaultCC rxnRedox).2.1.errors ∧
    (processReaction cfgRedox failRedoxOracle defaultCC rxnRedox).2.1.thermo.method
      = some Method.standard := by
  have hE : (buildStoichiometry cfgRedox.lookup rxnRedox).isEmpty = false := by
    norm_num [buildStoichiometry, cfgRedox, testLookup, rxnRedox, coC, crC,
      accKey, filterSmall, eps, List.filter, lt_abs]
  have hRl : reaction_needs_redox cfgRedox.lookup
      (load_redox_couples cfgRedox.redox) rxnRedox
      = [("kegg:CO", false, 250, "cyt"), ("kegg:CR", true, 250, "cyt")] := by
    simp [reaction_needs_redox, load_redox_couples, couplesByName,
      keggsInRxn, insertNew, coupleActive, insertCouple, cfgRedox, testLookup,
      testCouples, rxnRedox, coC, crC, lookupKey, setKey, updateKey,
      List.filter, PROTON_KEGG]
  have hR : (reaction_needs_redox cfgRedox.lookup
      (load_redox_couples cfgRedox.redox) rxnRedox).isEmpty = false := by
    rw [hRl]
    rfl
  have hq : failRedoxOracle.redoxDg defaultCC.p_h
      (buildPhased cfgRedox.lookup (load_redox_couples cfgRedox.redox)
        rxnRedox).1 = .error "rc" := rfl
  have hpc : analyze_proton_compartments cfgRedox.lookup rxnRedox = none := by
    norm_num [analyze_proton_compartments, cfgRedox, testLookup, rxnRedox,
      coC, crC, PROTON_KEGG, accKey, filterSmall, eps, List.filter, lt_abs]
  have main := C6_redox_failure_fallthrough cfgRedox failRedoxOracle defaultCC
    rxnRedox "rc" hE hR hq
  exact ⟨hE, hR, hpc, main.1, (main.2.2 hpc).1⟩

/-! ### C5: entry shape invariant -/

/-- Transport entry: no method tag, dG fixed at 0, no diagnostics. -/
def transportShape (t : Thermo) : Prop :=
  t.method = none ∧ t.dG_prime = some 0 ∧ t.uncertainty = some 0 ∧
  t.formula_queried = some FormulaQ.transport ∧ t.couples_used = none ∧
  t.membrane = none ∧ t.inner_compartment = none ∧
  t.outer_compartment = none ∧ t.proton_stoichiometry = none ∧
  t.dG_chemistry = none ∧ t.dG_membrane = none ∧ t.dG_per_proton = none ∧
  t.inner_pH = none ∧ t.outer_pH = none ∧ t.membrane_potential_mV = none ∧
  t.vectorial_protons = none

/-- Redox-carrier entry: result plus `couples_used`, nothing else. -/
def redoxShape (t : Thermo) : Prop :=
  t.method = some Method.redox_carrier ∧ t.dG_prime.isSome ∧
  t.uncertainty.isSome ∧ t.couples_used.isSome ∧
  (∃ c, t.formula_queried = some (FormulaQ.redoxBased c)) ∧
  t.membrane = none ∧ t.inner_compartment = none ∧
  t.outer_compartment = none ∧ t.proton_stoichiometry = none ∧
  t.dG_chemistry = none ∧ t.dG_membrane = none ∧ t.dG_per_proton = none ∧
  t.inner_pH = none ∧ t.outer_pH = none ∧ t.membrane_potential_mV = none ∧
  t.vectorial_protons = none

/-- Proton-pump entry: result plus the electrochemical diagnostics. -/
def pumpShape (t : Thermo) : Prop :=
  t.method = some Method.proton_pump ∧ t.dG_prime.isSome ∧
  t.uncertainty.isSome ∧ (∃ f, t.formula_queried = some (FormulaQ.std f)) ∧
  t.couples_used = none ∧ t.membrane = none ∧ t.inner_compartment = none ∧
  t.outer_compartment = none ∧ t.proton_stoichiometry.isSome ∧
  t.dG_chemistry.isSome ∧ t.dG_membrane.isSome ∧ t.dG_per_proton.isSome ∧
  t.inner_pH.isSome ∧ t.outer_pH.isSome ∧ t.membrane_potential_mV.isSome ∧
  t.vectorial_protons.isSome

/-- Multicompartmental entry: result plus the membrane diagnostics. -/
def multiShape (t : Thermo) : Prop :=
  t.method = some Method.multicompartmental ∧ t.dG_prime.isSome ∧
  t.uncertainty.isSome ∧
  (∃ a b c d, t.formula_queried = some (FormulaQ.multi a b c d)) ∧
  t.couples_used = none ∧ t.membrane.isSome ∧ t.inner_compartment.isSome ∧
  t.outer_compartment.isSome ∧ t.proton_stoichiometry.isSome ∧
  t.dG_chemistry = none ∧ t.dG_membrane = none ∧ t.dG_per_proton = none ∧
  t.inner_pH.isSome ∧ t.outer_pH.isSome ∧ t.membrane_potential_mV.isSome ∧
  t.vectorial_protons = none

/-- Standard entry: result and formula only. -/
def standardShape (t : Thermo) : Prop :=
  t.method = some Method.standard ∧ t.dG_prime.isSome ∧
  t.uncertainty.isSome ∧ (∃ f, t.formula_queried = some (FormulaQ.std f)) ∧
  t.couples_used = none ∧ t.membrane = none ∧ t.inner_compartment = none ∧
  t.outer_compartment = none ∧ t.proton_stoichiometry = none ∧
  t.dG_chemistry = none ∧ t.dG_membrane = none ∧ t.dG_per_proton = none ∧
  t.inner_pH = none ∧ t.outer_pH = none ∧ t.membrane_potential_mV = none ∧
  t.vectorial_protons = none

/-- All attempted methods failed: null result and a nonempty error trail. -/
def failedShape (e : Entry) : Prop :=
  e.thermo.dG_prime = none ∧ e.errors ≠ []

/-- The claim's invariant, literally: one of the five clean per-method
shapes, or total failure. -/
def C5spec (e : Entry) : Prop :=
  transportShape e.thermo ∨ redoxShape e.thermo ∨ pumpShape e.thermo ∨
  multiShape e.thermo ∨ standardShape e.thermo ∨ failedShape e

/-- The extra shape the code actually produces: a failed multicompartmental
attempt whose standard fallback ran, keeping the multicompartmental
diagnostics alongside the fallback method tag. -/
def fallbackShape (e : Entry) : Prop :=
  e.thermo.method = some Method.standardFallback ∧
  e.thermo.membrane.isSome ∧ e.thermo.inner_compartment.isSome ∧
  e.thermo.outer_compartment.isSome ∧ e.thermo.proton_stoichiometry.isSome ∧
  (∃ f, e.thermo.formula_queried = some (FormulaQ.std f)) ∧
  ∃ msg, RxnError.multicompartmental_error msg ∈ e.errors

theorem standardCalc_shape (O : Oracle) (cc : CC) (s : List (String × ℚ))
    (errs : List RxnError) :
    standardShape (standardCalc O cc s errs).2.1.thermo ∨
      failedShape (standardCalc O cc s errs).2.1 := by
  cases h : O.standardDg cc.p_h (stoich_to_formula s) with
  | ok vu =>
    left
    simp [standardCalc, h, standardShape, Thermo.empty]
  | error m =>
    right
    simp [standardCalc, h, failedShape, Thermo.empty]

theorem protonPumpCalc_shape (O : Oracle) (cc : CC) (s : List (String × ℚ))
    (errs : List RxnError) (params : CompartmentParams)
    (pcl : List (String × ℚ)) (innerC outerC : String) (mb : Membrane)
    (innerF outerF : Formula) :
    pumpShape (protonPumpCalc O cc s errs params pcl innerC outerC mb innerF
        outerF).2.1.thermo ∨
      standardShape (protonPumpCalc O cc s errs params pcl innerC outerC mb
        innerF outerF).2.1.thermo ∨
      failedShape (protonPumpCalc O cc s errs params pcl innerC outerC mb
        innerF outerF).2.1 := by
  cases h : O.standardDg cc.p_h (stoich_to_formula s) with
  | ok vu =>
    left
    simp [protonPumpCalc, h, pumpShape, Thermo.empty]
  | error msg =>
    rcases standardCalc_shape O cc s
        (errs ++ [.proton_pump_error msg innerF outerF]) with h2 | h2
    · right; left
      simpa [protonPumpCalc, h] using h2
    · right; right
      simpa [protonPumpCalc, h] using h2

theorem multiCalc_shape (O : Oracle) (s : List (String × ℚ))
    (errs : List RxnError) (params : CompartmentParams)
    (pcl : List (String × ℚ)) (innerC outerC mkey : String) (mb : Membrane)
    (innerF outerF : Formula) :
    multiShape (multiCalc O s errs params pcl innerC outerC mkey mb innerF
        outerF).2.1.thermo ∨
      (fallbackShape (multiCalc O s errs params pcl innerC outerC mkey mb
          innerF outerF).2.1 ∧
        (multiCalc O s errs params pcl innerC outerC mkey mb innerF
          outerF).2.1.thermo.dG_prime.isSome) ∨
      failedShape (multiCalc O s errs params pcl innerC outerC mkey mb innerF
        outerF).2.1 := by
  cases h : O.multiDg (pHOf params innerC) innerF outerF (mb.potential_mV / 1000)
      (pHOf params outerC) params.ionic_strength with
  | ok vu =>
    left
    simp [multiCalc, h, multiShape, Thermo.empty]
  | error msg =>
    cases h2 : O.standardDg (pHOf params innerC) (stoich_to_formula s) with
    | ok vu =>
      right; left
      constructor
      · refine ⟨?_, ?_, ?_, ?_, ?_, ⟨stoich_to_formula s, ?_⟩, msg, ?_⟩ <;>
          simp [multiCalc, h, h2, Thermo.empty]
      · simp [multiCalc, h, h2]
    | error m2 =>
      right; right
      simp [multiCalc, h, h2, failedShape, Thermo.empty]

/-- C5 (amended).  Every produced entry is in exactly one clean method shape
(standard, multicompartmental, proton_pump, redox_carrier, or the untagged
transport shape), or records total failure with a null dG and nonempty
errors, or — the case the original claim misses — is a failed
multicompartmental attempt whose standard fallback succeeded, tagged
"standard (fallback)" with the multicompartmental diagnostics still
populated. -/
theorem C5_entry_shapes (cfg : Config) (O : Oracle) (cc : CC) (rxn : Rxn) :
    C5spec (processReaction cfg O cc rxn).2.1 ∨
      (fallbackShape (processReaction cfg O cc rxn).2.1 ∧
        (processReaction cfg O cc rxn).2.1.thermo.dG_prime.isSome) := by
  by_cases hE : (buildStoichiometry cfg.lookup rxn).isEmpty
  · left; left
    simp [processReaction, hE, transportShape, Thermo.empty]
  · by_cases hR : (reaction_needs_redox cfg.lookup
        (load_redox_couples cfg.redox) rxn).isEmpty
    · have hpr : (processReaction cfg O cc rxn).2.1
          = (processMembrane cfg O cc rxn (buildStoichiometry cfg.lookup rxn)
              (baseErrors cfg.lookup rxn)).2.1 := by
        simp [processReaction, hE, hR]
      rw [hpr]
      rcases processMembrane_cases cfg O cc rxn
          (buildStoichiometry cfg.lookup rxn) (baseErrors cfg.lookup rxn) with
        h | ⟨p, pc, iC, oC, mb, iF, oF, _, h⟩ | ⟨p, pc, iC, oC, mk, mb, iF, oF, _, h⟩ <;>
        rw [h]
      · rcases standardCalc_shape O cc (buildStoichiometry cfg.lookup rxn)
            (baseErrors cfg.lookup rxn) with h2 | h2
        · exact Or.inl (Or.inr (Or.inr (Or.inr (Or.inr (Or.inl h2)))))
        · exact Or.inl (Or.inr (Or.inr (Or.inr (Or.inr (Or.inr h2)))))
      · rcases protonPumpCalc_shape O cc (buildStoichiometry cfg.lookup rxn)
            (baseErrors cfg.lookup rxn) p pc iC oC mb iF oF with h2 | h2 | h2
        · exact Or.inl (Or.inr (Or.inr (Or.inl h2)))
        · exact Or.inl (Or.inr (Or.inr (Or.inr (Or.inr (Or.inl h2)))))
        · exact Or.inl (Or.inr (Or.inr (Or.inr (Or.inr (Or.inr h2)))))
      · rcases multiCalc_shape O (buildStoichiometry cfg.lookup rxn)
            (baseErrors cfg.lookup rxn) p pc iC oC mk mb iF oF with h2 | h2 | h2
        · exact Or.inl (Or.inr (Or.inr (Or.inr (Or.inl h2))))
        · exact Or.inr h2
        · exact Or.inl (Or.inr (Or.inr (Or.inr (Or.inr (Or.inr h2)))))
    · cases hq : O.redoxDg cc.p_h
          (buildPhased cfg.lookup (load_redox_couples cfg.redox) rxn).1 with
      | ok vu =>
        left; right; left
        simp [processReaction, hE, hR, hq, redoxShape, Thermo.empty]
      | error msg =>
        have hpr : (processReaction cfg O cc rxn).2.1
            = (processMembrane cfg O cc rxn (buildStoichiometry cfg.lookup rxn)
                (baseErrors cfg.lookup rxn ++
                  [.redox_carrier_error msg ((reaction_needs_redox cfg.lookup
                    (load_redox_couples cfg.redox) rxn).map
                      fun t => t.2.2.2)])).2.1 := by
          simp [processReaction, hE, hR, hq]
        rw [hpr]
        rcases processMembrane_cases cfg O cc rxn
            (buildStoichiometry cfg.lookup rxn)
            (baseErrors cfg.lookup rxn ++
              [.redox_carrier_error msg ((reaction_needs_redox cfg.lookup
                (load_redox_couples cfg.redox) rxn).map fun t => t.2.2.2)]) with
          h | ⟨p, pc, iC, oC, mb, iF, oF, _, h⟩ | ⟨p, pc, iC, oC, mk, mb, iF, oF, _, h⟩ <;>
          rw [h]
        · rcases standardCalc_shape O cc (buildStoichiometry cfg.lookup rxn) _
            with h2 | h2
          · exact Or.inl (Or.inr (Or.inr (Or.inr (Or.inr (Or.inl h2)))))
          · exact Or.inl (Or.inr (Or.inr (Or.inr (Or.inr (Or.inr h2)))))
        · rcases protonPumpCalc_shape O cc (buildStoichiometry cfg.lookup rxn)
            _ p pc iC oC mb iF oF with h2 | h2 | h2
          · exact Or.inl (Or.inr (Or.inr (Or.inl h2)))
          · exact Or.inl (Or.inr (Or.inr (Or.inr (Or.inr (Or.inl h2)))))
          · exact Or.inl (Or.inr (Or.inr (Or.inr (Or.inr (Or.inr h2)))))
        · rcases multiCalc_shape O (buildStoichiometry cfg.lookup rxn) _
            p pc iC oC mk mb iF oF with h2 | h2 | h2
          · exact Or.inl (Or.inr (Or.inr (Or.inr (Or.inl h2))))
          · exact Or.inr h2
          · exact Or.inl (Or.inr (Or.inr (Or.inr (Or.inr (Or.inr h2)))))

/-- C5 counterexample: when the multicompartmental attempt fails and the
standard fallback succeeds, the entry carries the tag "standard (fallback)"
— outside the claim's method set — with the multicompartmental diagnostics
still populated next to a non-null result, violating the claimed
exactly-one-shape invariant. -/
theorem C5_counterexample :
    ¬ C5spec (processReaction cfgPlain failMultiOracle defaultCC rxnMulti).2.1 ∧
    fallbackShape (processReaction cfgPlain failMultiOracle defaultCC rxnMulti).2.1 ∧
    (processReaction cfgPlain failMultiOracle defaultCC rxnMulti).2.1.thermo.dG_prime
      = some 5 := by
  have hstoich : buildStoichiometry cfgPlain.lookup rxnMulti
      = [("kegg:X", -1), ("kegg:Y", 1), ("kegg:Z", -1)] := by
    norm_num [buildStoichiometry, cfgPlain, testLookup, rxnMulti, xC, yM, zM,
      hC, hM, accKey, filterSmall, eps, List.filter, lt_abs, PROTON_KEGG]
  have hE : (buildStoichiometry cfgPlain.lookup rxnMulti).isEmpty = false := by
    rw [hstoich]
    rfl
  have hRl : reaction_needs_redox cfgPlain.lookup
      (load_redox_couples cfgPlain.redox) rxnMulti = [] := by
    simp [reaction_needs_redox, load_redox_couples, couplesByName, cfgPlain]
  have hR : (reaction_needs_redox cfgPlain.lookup
      (load_redox_couples cfgPlain.redox) rxnMulti).isEmpty = true := by
    rw [hRl]
    rfl
  have hpr : (processReaction cfgPlain failMultiOracle defaultCC rxnMulti).2.1
      = (processMembrane cfgPlain failMultiOracle defaultCC rxnMulti
          (buildStoichiometry cfgPlain.lookup rxnMulti)
          (baseErrors cfgPlain.lookup rxnMulti)).2.1 := by
    simp [processReaction, hE, hR]
  have hpc : analyze_proton_compartments cfgPlain.lookup rxnMulti
      = some [("c", -1), ("m", 1)] := by
    norm_num [analyze_proton_compartments, cfgPlain, testLookup, rxnMulti, xC,
      yM, zM, hC, hM, PROTON_KEGG, accKey, filterSmall, eps, List.filter,
      lt_abs]
  have htm : is_transmembrane_proton_reaction (some [("c", -1), ("m", 1)])
      testParams.membranes = some ("m", "c", "mito") := by
    norm_num [is_transmembrane_proton_reaction, findMembrane, keys, testParams]
  have hhalves : build_half_reactions cfgPlain.lookup rxnMulti "m" "c"
      = ([("kegg:Y", 1), ("kegg:Z", -1), ("kegg:C00080", 1)],
         [("kegg:X", -1), ("kegg:C00080", -1)]) := by
    norm_num [build_half_reactions, cfgPlain, testLookup, rxnMulti, xC, yM,
      zM, hC, hM, accKey, filterSmall, eps, List.filter, lt_abs, PROTON_KEGG]
  have hcond : (onlyProducts
        (build_half_reactions cfgPlain.lookup rxnMulti "m" "c").2 ||
      onlyProducts (build_half_reactions cfgPlain.lookup rxnMulti "m" "c").1)
      = false := by
    rw [hhalves]
    norm_num [onlyProducts, List.all]
  have hparams : cfgPlain.params = some testParams := rfl
  have hentry : processMembrane cfgPlain failMultiOracle defaultCC rxnMulti
      (buildStoichiometry cfgPlain.lookup rxnMulti)
      (baseErrors cfgPlain.lookup rxnMulti)
      = multiCalc failMultiOracle (buildStoichiometry cfgPlain.lookup rxnMulti)
          (baseErrors cfgPlain.lookup rxnMulti) testParams
          [("c", -1), ("m", 1)] "m" "c" "mito"
          ((lookupKey testParams.membranes "mito").getD ⟨"", "", 0⟩)
          (stoich_to_formula
            (build_half_reactions cfgPlain.lookup rxnMulti "m" "c").1)
          (stoich_to_formula
            (build_half_reactions cfgPlain.lookup rxnMulti "m" "c").2) := by
    unfold processMembrane
    rw [hparams, hpc]
    dsimp only
    rw [htm]
    dsimp only
    rw [if_neg (by rw [hcond]; exact Bool.false_ne_true)]
  have hmethod : (processReaction cfgPlain failMultiOracle defaultCC
      rxnMulti).2.1.thermo.method = some Method.standardFallback := by
    rw [hpr, hentry]
    simp [multiCalc, failMultiOracle]
  have hdG : (processReaction cfgPlain failMultiOracle defaultCC
      rxnMulti).2.1.thermo.dG_prime = some 5 := by
    rw [hpr, hentry]
    simp [multiCalc, failMultiOracle]
  have hfb : fallbackShape (processReaction cfgPlain failMultiOracle defaultCC
      rxnMulti).2.1 := by
    rw [hpr, hentry]
    refine ⟨?_, ?_, ?_, ?_, ?_,
      ⟨stoich_to_formula (buildStoichiometry cfgPlain.lookup rxnMulti), ?_⟩,
      "mc", ?_⟩ <;>
      simp [multiCalc, failMultiOracle, Thermo.empty]
  refine ⟨?_, hfb, hdG⟩
  intro hC5
  rcases hC5 with h | h | h | h | h | h
  · exact absurd (hmethod.symm.trans h.1) (by simp)
  · exact absurd (hmethod.symm.trans h.1) (by simp)
  · exact absurd (hmethod.symm.trans h.1) (by simp)
  · exact absurd (hmethod.symm.trans h.1) (by simp)
  · exact absurd (hmethod.symm.trans h.1) (by simp)
  · exact absurd (hdG.symm.trans h.1) (by simp)

/-! ### C9: the ambient pH set by the multicompartmental branch leaks -/

/-- The ambient pH a logged external call was evaluated at. -/
def callPH : ExtCall → ℚ
  | .standardDg ph _ => ph
  | .multiDg ph _ _ _ _ _ => ph
  | .redoxDg ph _ => ph

theorem standardCalc_calls (O : Oracle) (cc : CC) (s : List (String × ℚ))
    (errs : List RxnError) :
    ∀ c ∈ (standardCalc O cc s errs).2.2, callPH c = cc.p_h := by
  intro c hc
  cases h : O.standardDg cc.p_h (stoich_to_formula s) <;>
    (simp only [standardCalc, h, List.mem_singleton] at hc; rw [hc]; rfl)

theorem protonPumpCalc_calls (O : Oracle) (cc : CC) (s : List (String × ℚ))
    (errs : List RxnError) (params : CompartmentParams)
    (pcl : List (String × ℚ)) (innerC outerC : String) (mb : Membrane)
    (innerF outerF : Formula) :
    ∀ c ∈ (protonPumpCalc O cc s errs params pcl innerC outerC mb innerF
      outerF).2.2, callPH c = cc.p_h := by
  intro c hc
  cases h : O.standardDg cc.p_h (stoich_to_formula s) with
  | ok vu =>
    simp only [protonPumpCalc, h, List.mem_singleton] at hc
    rw [hc]
    rfl
  | error msg =>
    simp only [protonPumpCalc, h, List.mem_cons] at hc
    rcases hc with hc | hc
    · rw [hc]; rfl
    · exact standardCalc_calls O cc s _ c hc

theorem multiCalc_calls (O : Oracle) (s : List (String × ℚ))
    (errs : List RxnError) (params : CompartmentParams)
    (pcl : List (String × ℚ)) (innerC outerC mkey : String) (mb : Membrane)
    (innerF outerF : Formula) :
    ∀ c ∈ (multiCalc O s errs params pcl innerC outerC mkey mb innerF
      outerF).2.2, callPH c = pHOf params innerC := by
  intro c hc
  cases h : O.multiDg (pHOf params innerC) innerF outerF (mb.potential_mV / 1000)
      (pHOf params outerC) params.ionic_strength with
  | ok vu =>
    simp only [multiCalc, h, List.mem_singleton] at hc
    rw [hc]
    rfl
  | error msg =>
    cases h2 : O.standardDg (pHOf params innerC) (stoich_to_formula s) <;>
      (simp only [multiCalc, h, h2, List.mem_cons, List.mem_singleton,
        List.not_mem_nil, or_false] at hc
       rcases hc with hc | hc <;> (rw [hc]; rfl))

theorem multiCalc_inner (O : Oracle) (s : List (String × ℚ))
    (errs : List RxnError) (params : CompartmentParams)
    (pcl : List (String × ℚ)) (innerC outerC mkey : String) (mb : Membrane)
    (innerF outerF : Formula) :
    (multiCalc O s errs params pcl innerC outerC mkey mb innerF
      outerF).2.1.thermo.inner_compartment = some innerC := by
  cases h : O.multiDg (pHOf params innerC) innerF outerF (mb.potential_mV / 1000)
      (pHOf params outerC) params.ionic_strength with
  | ok vu => simp [multiCalc, h]
  | error msg =>
    cases h2 : O.standardDg (pHOf params innerC) (stoich_to_formula s) <;>
      simp [multiCalc, h, h2]

theorem processMembrane_calls (cfg : Config) (O : Oracle) (cc : CC)
    (rxn : Rxn) (stoich : List (String × ℚ)) (errs : List RxnError) :
    ∀ c ∈ (processMembrane cfg O cc rxn stoich errs).2.2,
      callPH c = cc.p_h ∨
        callPH c = (processMembrane cfg O cc rxn stoich errs).1.p_h := by
  intro c hc
  rcases processMembrane_cases cfg O cc rxn stoich errs with
    h | ⟨p, pc, iC, oC, mb, iF, oF, _, h⟩ |
    ⟨p, pc, iC, oC, mk, mb, iF, oF, _, h⟩
  · rw [h] at hc
    exact Or.inl (standardCalc_calls O cc stoich errs c hc)
  · rw [h] at hc
    exact Or.inl (protonPumpCalc_calls O cc stoich errs p pc iC oC mb iF oF c hc)
  · rw [h] at hc ⊢
    right
    rw [multiCalc_cc]
    exact multiCalc_calls O stoich errs p pc iC oC mk mb iF oF c hc

theorem processReaction_calls (cfg : Config) (O : Oracle) (cc : CC)
    (rxn : Rxn) :
    ∀ c ∈ (processReaction cfg O cc rxn).2.2,
      callPH c = cc.p_h ∨
        callPH c = (processReaction cfg O cc rxn).1.p_h := by
  intro c hc
  by_cases hE : (buildStoichiometry cfg.lookup rxn).isEmpty
  · simp [processReaction, hE] at hc
  · by_cases hR : (reaction_needs_redox cfg.lookup
        (load_redox_couples cfg.redox) rxn).isEmpty
    · have hEq : processReaction cfg O cc rxn
          = processMembrane cfg O cc rxn (buildStoichiometry cfg.lookup rxn)
              (baseErrors cfg.lookup rxn) := by
        simp [processReaction, hE, hR]
      rw [hEq] at hc ⊢
      exact processMembrane_calls cfg O cc rxn _ _ c hc
    · cases hq : O.redoxDg cc.p_h
          (buildPhased cfg.lookup (load_redox_couples cfg.redox) rxn).1 with
      | ok vu =>
        simp [processReaction, hE, hR, hq] at hc
        subst hc
        exact Or.inl rfl
      | error msg =>
        have hcc : (processReaction cfg O cc rxn).1
            = (processMembrane cfg O cc rxn (buildStoichiometry cfg.lookup rxn)
                (baseErrors cfg.lookup rxn ++
                  [.redox_carrier_error msg ((reaction_needs_redox cfg.lookup
                    (load_redox_couples cfg.redox) rxn).map
                      fun t => t.2.2.2)])).1 := by
          simp [processReaction, hE, hR, hq]
        have hcalls : (processReaction cfg O cc rxn).2.2
            = .redoxDg cc.p_h
                (buildPhased cfg.lookup (load_redox_couples cfg.redox) rxn).1
              :: (processMembrane cfg O cc rxn
                  (buildStoichiometry cfg.lookup rxn)
                  (baseErrors cfg.lookup rxn ++
                    [.redox_carrier_error msg ((reaction_needs_redox cfg.lookup
                      (load_redox_couples cfg.redox) rxn).map
                        fun t => t.2.2.2)])).2.2 := by
          simp [processReaction, hE, hR, hq]
        rw [hcalls] at hc
        rw [hcc]
        rcases List.mem_cons.mp hc with rfl | hc2
        · exact Or.inl rfl
        · exact processMembrane_calls cfg O cc rxn _ _ c hc2

theorem processReaction_state_cases (cfg : Config) (O : Oracle) (cc : CC)
    (rxn : Rxn) :
    ((processReaction cfg O cc rxn).1 = cc ∧
      (processReaction cfg O cc rxn).2.1.thermo.method
          ≠ some Method.multicompartmental ∧
      (processReaction cfg O cc rxn).2.1.thermo.method
          ≠ some Method.standardFallback) ∨
    (∃ params innerC, cfg.params = some params ∧
      (processReaction cfg O cc rxn).2.1.thermo.inner_compartment
        = some innerC ∧
      (processReaction cfg O cc rxn).1 = ⟨pHOf params innerC⟩ ∧
      ((processReaction cfg O cc rxn).2.1.thermo.method
          = some Method.multicompartmental ∨
        (processReaction cfg O cc rxn).2.1.thermo.method
          = some Method.standardFallback)) := by
  rcases processReaction_to_membrane cfg O cc rxn with
    ⟨_, hm, hcc⟩ | ⟨hm, hcc⟩ | ⟨errs, he, hcc⟩
  · left
    refine ⟨hcc, ?_, ?_⟩ <;> (rw [hm]; exact fun h => Option.noConfusion h)
  · left
    refine ⟨hcc, ?_, ?_⟩ <;> (rw [hm]; intro h; cases Option.some.inj h)
  · rcases processMembrane_cases cfg O cc rxn
        (buildStoichiometry cfg.lookup rxn) errs with
      h | ⟨p, pc, iC, oC, mb, iF, oF, _, h⟩ |
      ⟨p, pc, iC, oC, mk, mb, iF, oF, hp, h⟩
    · left
      rw [he, hcc, h]
      refine ⟨standardCalc_cc .., ?_, ?_⟩ <;>
        (rw [standardCalc_method]; intro hx; cases Option.some.inj hx)
    · left
      rw [he, hcc, h]
      refine ⟨protonPumpCalc_cc .., ?_, ?_⟩ <;>
        (rcases protonPumpCalc_method O cc (buildStoichiometry cfg.lookup rxn)
            errs p pc iC oC mb iF oF with h2 | h2 <;>
          (rw [h2]; intro hx; cases Option.some.inj hx))
    · right
      rw [he, hcc, h]
      exact ⟨p, iC, hp, multiCalc_inner .., multiCalc_cc .., multiCalc_method ..⟩

/-- A plain standard reaction with no protons and no couple members. -/
def rxnStd : Rxn := ⟨"rS", [(xC, -1), (yM, 1)]⟩

/-- A service whose standard endpoint reports the ambient pH it was asked
at, making pH leakage observable in the result. -/
def phOracle : Oracle :=
  ⟨fun ph _ => .ok (ph, 1), fun _ _ _ _ _ _ => .ok (1, 1), fun _ _ => .ok (4, 1)⟩

/-- From any calculator state, `rxnMulti` takes the multicompartmental path
with the mito membrane. -/
theorem rxnMulti_process (O : Oracle) (cc : CC) :
    processReaction cfgPlain O cc rxnMulti
      = multiCalc O (buildStoichiometry cfgPlain.lookup rxnMulti)
          (baseErrors cfgPlain.lookup rxnMulti) testParams
          [("c", -1), ("m", 1)] "m" "c" "mito"
          ((lookupKey testParams.membranes "mito").getD ⟨"", "", 0⟩)
          (stoich_to_formula
            (build_half_reactions cfgPlain.lookup rxnMulti "m" "c").1)
          (stoich_to_formula
            (build_half_reactions cfgPlain.lookup rxnMulti "m" "c").2) := by
  have hstoich : buildStoichiometry cfgPlain.lookup rxnMulti
      = [("kegg:X", -1), ("kegg:Y", 1), ("kegg:Z", -1)] := by
    norm_num [buildStoichiometry, cfgPlain, testLookup, rxnMulti, xC, yM, zM,
      hC, hM, accKey, filterSmall, eps, List.filter, lt_abs, PROTON_KEGG]
  have hE : (buildStoichiometry cfgPlain.lookup rxnMulti).isEmpty = false := by
    rw [hstoich]
    rfl
  have hRl : reaction_needs_redox cfgPlain.lookup
      (load_redox_couples cfgPlain.redox) rxnMulti = [] := by
    simp [reaction_needs_redox, load_redox_couples, couplesByName, cfgPlain]
  have hR : (reaction_needs_redox cfgPlain.lookup
      (load_redox_couples cfgPlain.redox) rxnMulti).isEmpty = true := by
    rw [hRl]
    rfl
  have hpc : analyze_proton_compartments cfgPlain.lookup rxnMulti
      = some [("c", -1), ("m", 1)] := by
    norm_num [analyze_proton_compartments, cfgPlain, testLookup, rxnMulti, xC,
      yM, zM, hC, hM, PROTON_KEGG, accKey, filterSmall, eps, List.filter,
      lt_abs]
  have htm : is_transmembrane_proton_reaction (some [("c", -1), ("m", 1)])
      testParams.membranes = some ("m", "c", "mito") := by
    norm_num [is_transmembrane_proton_reaction, findMembrane, keys, testParams]
  have hhalves : build_half_reactions cfgPlain.lookup rxnMulti "m" "c"
      = ([("kegg:Y", 1), ("kegg:Z", -1), ("kegg:C00080", 1)],
         [("kegg:X", -1), ("kegg:C00080", -1)]) := by
    norm_num [build_half_reactions, cfgPlain, testLookup, rxnMulti, xC, yM,
      zM, hC, hM, accKey, filterSmall, eps, List.filter, lt_abs, PROTON_KEGG]
  have hcond : (onlyProducts
        (build_half_reactions cfgPlain.lookup rxnMulti "m" "c").2 ||
      onlyProducts (build_half_reactions cfgPlain.lookup rxnMulti "m" "c").1)
      = false := by
    rw [hhalves]
    norm_num [onlyProducts, List.all]
  have hstep : processReaction cfgPlain O cc rxnMulti
      = processMembrane cfgPlain O cc rxnMulti
          (buildStoichiometry cfgPlain.lookup rxnMulti)
          (baseErrors cfgPlain.lookup rxnMulti) := by
    simp [processReaction, hE, hR]
  rw [hstep]
  unfold processMembrane
  rw [show cfgPlain.params = some testParams from rfl, hpc]
  dsimp only
  rw [htm]
  dsimp only
  rw [if_neg (by rw [hcond]; exact Bool.false_ne_true)]

/-- From any calculator state, `rxnStd` takes the standard path. -/
theorem rxnStd_process (O : Oracle) (cc : CC) :
    processReaction cfgPlain O cc rxnStd
      = standardCalc O cc (buildStoichiometry cfgPlain.lookup rxnStd)
          (baseErrors cfgPlain.lookup rxnStd) := by
  have hstoich : buildStoichiometry cfgPlain.lookup rxnStd
      = [("kegg:X", -1), ("kegg:Y", 1)] := by
    norm_num [buildStoichiometry, cfgPlain, testLookup, rxnStd, xC, yM,
      accKey, filterSmall, eps, List.filter, lt_abs]
  have hE : (buildStoichiometry cfgPlain.lookup rxnStd).isEmpty = false := by
    rw [hstoich]
    rfl
  have hRl : reaction_needs_redox cfgPlain.lookup
      (load_redox_couples cfgPlain.redox) rxnStd = [] := by
    simp [reaction_needs_redox, load_redox_couples, couplesByName, cfgPlain]
  have hR : (reaction_needs_redox cfgPlain.lookup
      (load_redox_couples cfgPlain.redox) rxnStd).isEmpty = true := by
    rw [hRl]
    rfl
  have hpc : analyze_proton_compartments cfgPlain.lookup rxnStd = none := by
    norm_num [analyze_proton_compartments, cfgPlain, testLookup, rxnStd, xC,
      yM, PROTON_KEGG, accKey, filterSmall, eps, List.filter, lt_abs]
  have hstep : processReaction cfgPlain O cc rxnStd
      = processMembrane cfgPlain O cc rxnStd
          (buildStoichiometry cfgPlain.lookup rxnStd)
          (baseErrors cfgPlain.lookup rxnStd) := by
    simp [processReaction, hE, hR]
  rw [hstep]
  exact processMembrane_no_protons cfgPlain O cc rxnStd _ _ hpc

/-- C9.  The ambient pH written by the multicompartmental branch is never
restored: a reaction that takes that path leaves the calculator at its inner
compartment's pH, every other reaction leaves the state untouched, every
external call is evaluated at the ambient pH current when it is made, and a
concrete run shows a later standard reaction's result changing according to
which reactions preceded it. -/
theorem C9_ambient_pH_leak (cfg : Config) (O : Oracle) (cc : CC) (rxn : Rxn) :
    (((processReaction cfg O cc rxn).2.1.thermo.method
          = some Method.multicompartmental ∨
        (processReaction cfg O cc rxn).2.1.thermo.method
          = some Method.standardFallback) →
      ∃ params innerC, cfg.params = some params ∧
        (processReaction cfg O cc rxn).2.1.thermo.inner_compartment
          = some innerC ∧
        (processReaction cfg O cc rxn).1 = ⟨pHOf params innerC⟩) ∧
    (¬ ((processReaction cfg O cc rxn).2.1.thermo.method
          = some Method.multicompartmental ∨
        (processReaction cfg O cc rxn).2.1.thermo.method
          = some Method.standardFallback) →
      (processReaction cfg O cc rxn).1 = cc) ∧
    (∀ c ∈ (processReaction cfg O cc rxn).2.2,
      callPH c = cc.p_h ∨ callPH c = (processReaction cfg O cc rxn).1.p_h) ∧
    ((processReaction cfgPlain phOracle defaultCC rxnMulti).2.1.thermo.method
        = some Method.multicompartmental ∧
      (processReaction cfgPlain phOracle
        (processReaction cfgPlain phOracle defaultCC rxnMulti).1
        rxnStd).2.1.thermo.dG_prime = some (36 / 5) ∧
      (processReaction cfgPlain phOracle defaultCC rxnStd).2.1.thermo.dG_prime
        = some 7) := by
  have hconc1 : (processReaction cfgPlain phOracle defaultCC
      rxnMulti).2.1.thermo.method = some Method.multicompartmental := by
    rw [rxnMulti_process]
    simp [multiCalc, phOracle]
  have hstate : (processReaction cfgPlain phOracle defaultCC rxnMulti).1
      = ⟨36 / 5⟩ := by
    rw [rxnMulti_process, multiCalc_cc]
    simp [pHOf, testParams, lookupKey]
  have hconc2 : (processReaction cfgPlain phOracle
      (processReaction cfgPlain phOracle defaultCC rxnMulti).1
      rxnStd).2.1.thermo.dG_prime = some (36 / 5) := by
    rw [hstate, rxnStd_process]
    simp [standardCalc, phOracle]
  have hconc3 : (processReaction cfgPlain phOracle defaultCC
      rxnStd).2.1.thermo.dG_prime = some 7 := by
    rw [rxnStd_process]
    simp [standardCalc, phOracle, defaultCC]
  refine ⟨?_, ?_, processReaction_calls cfg O cc rxn, hconc1, hconc2, hconc3⟩
  · intro hm
    rcases processReaction_state_cases cfg O cc rxn with
      ⟨_, hne1, hne2⟩ | ⟨p, iC, hp, hinner, hcc2, _⟩
    · rcases hm with hm | hm
      · exact absurd hm hne1
      · exact absurd hm hne2
    · exact ⟨p, iC, hp, hinner, hcc2⟩
  · intro hn
    rcases processReaction_state_cases cfg O cc rxn with
      ⟨hcc2, _, _⟩ | ⟨_, _, _, _, _, hmeth⟩
    · exact hcc2
    · exact absurd hmeth hn

theorem C9_ambient_pH_leak_witness :
    ∃ params innerC, cfgPlain.params = some params ∧
      (processReaction cfgPlain phOracle defaultCC
        rxnMulti).2.1.thermo.inner_compartment = some innerC ∧
      (processReaction cfgPlain phOracle defaultCC rxnMulti).1
        = ⟨pHOf params innerC⟩ :=
  (C9_ambient_pH_leak cfgPlain phOracle defaultCC rxnMulti).1
    (Or.inl (C9_ambient_pH_leak cfgPlain phOracle defaultCC
      rxnMulti).2.2.2.1)

/-! ### C7: the cascading identifier resolver -/

theorem dropWhile_head_neg {α : Type} (p : α → Bool) :
    ∀ (l : List α) (x : α) (xs : List α), l.dropWhile p = x :: xs →
      p x = false := by
  intro l
  induction l with
  | nil => intro x xs h; cases h
  | cons a t ih =>
    intro x xs h
    rw [List.dropWhile_cons] at h
    by_cases ha : p a = true
    · rw [if_pos ha] at h
      exact ih x xs h
    · rw [if_neg ha] at h
      injection h with h1 _
      subst h1
      exact Bool.eq_false_iff.mpr ha

theorem cascadeIds_eq (O : COracle) (ids : List (String × String)) :
    cascadeIds O ids
      = ((ids.dropWhile (idFails O)).head?.map
            fun p => (okVal (O.byId p.1), p.1, p.2),
         (ids.takeWhile (idFails O)).map (idErrRec O),
         (ids.takeWhile (idFails O)).map (fun p => CCall.byId p.1)
           ++ ((ids.dropWhile (idFails O)).head?.map
                fun p => CCall.byId p.1).toList) := by
  induction ids with
  | nil => rfl
  | cons p rest ih =>
    obtain ⟨q, src⟩ := p
    cases h : O.byId q with
    | ok k =>
      have hf : idFails O (q, src) = false := by simp [idFails, h, Except.isOk, Except.toBool]
      simp [cascadeIds, h, List.takeWhile_cons, List.dropWhile_cons, hf,
        okVal]
    | error e =>
      have hf : idFails O (q, src) = true := by simp [idFails, h, Except.isOk, Except.toBool]
      simp [cascadeIds, h, List.takeWhile_cons, List.dropWhile_cons, hf,
        idErrRec, msgOf, ih]

/-- C7.  The cascading resolver issues at most one call per identifier plus
at most one name search, every call before the last one fails, at most one
call succeeds, and the errors list records exactly the failed identifier
attempts in order (source, query, message, found=false), plus the failed
name search when everything fails. -/
theorem C7_cascade_resolver (O : COracle) (ids : List (String × String))
    (nm : String) :
    (query_with_cascade O ids nm).2.length ≤ ids.length + 1 ∧
    (∀ c ∈ (query_with_cascade O ids nm).2.dropLast,
      callSucceeds O c = false) ∧
    ((query_with_cascade O ids nm).2.filter
        fun c => callSucceeds O c).length ≤ 1 ∧
    (query_with_cascade O ids nm).1.errors
      = (ids.takeWhile (idFails O)).map (idErrRec O)
        ++ (if ids.all (idFails O) && !(O.byName nm).isOk then
              [⟨"name_search", nm, msgOf (O.byName nm), false⟩]
            else []) ∧
    ∀ e ∈ (query_with_cascade O ids nm).1.errors, e.found = false := by
  have hlen : (ids.takeWhile (idFails O)).length ≤ ids.length :=
    (List.takeWhile_prefix (idFails O)).length_le
  cases hd : ids.dropWhile (idFails O) with
  | cons p tail =>
    obtain ⟨q, src⟩ := p
    have hqok : (O.byId q).isOk = true := by
      have h := dropWhile_head_neg (idFails O) ids (q, src) tail hd
      simpa [idFails] using h
    have hall : ids.all (idFails O) = false := by
      by_contra hcon
      rw [Bool.not_eq_false] at hcon
      have hnil : ids.dropWhile (idFails O) = [] :=
        List.dropWhile_eq_nil_iff.mpr (List.all_eq_true.mp hcon)
      rw [hnil] at hd
      cases hd
    have hQ : query_with_cascade O ids nm
        = (⟨okVal (O.byId q), some q, some src,
             (ids.takeWhile (idFails O)).map (idErrRec O)⟩,
           (ids.takeWhile (idFails O)).map (fun p => CCall.byId p.1)
             ++ [CCall.byId q]) := by
      unfold query_with_cascade
      rw [cascadeIds_eq, hd]
      simp
    rw [hQ]
    refine ⟨?_, ?_, ?_, ?_, ?_⟩
    · simpa using Nat.succ_le_succ hlen
    · intro c hc
      rw [List.dropLast_concat] at hc
      obtain ⟨p', hp', rfl⟩ := List.mem_map.mp hc
      have ht : idFails O p' = true := List.mem_takeWhile_imp hp'
      simp [idFails] at ht
      simpa [callSucceeds] using ht
    · rw [List.filter_append]
      have h1 : ((ids.takeWhile (idFails O)).map
            (fun p => CCall.byId p.1)).filter
          (fun c => callSucceeds O c) = [] := by
        rw [List.filter_eq_nil_iff]
        intro c hc
        obtain ⟨p', hp', rfl⟩ := List.mem_map.mp hc
        have ht : idFails O p' = true := List.mem_takeWhile_imp hp'
        simp [idFails] at ht
        simp [callSucceeds, ht]
      rw [h1]
      simpa using List.length_filter_le (fun c => callSucceeds O c)
        [CCall.byId q]
    · rw [hall]
      simp
    · intro e he
      obtain ⟨p', _, rfl⟩ := List.mem_map.mp he
      rfl
  | nil =>
    have hall : ids.all (idFails O) = true :=
      List.all_eq_true.mpr (List.dropWhile_eq_nil_iff.mp hd)
    cases hn : O.byName nm with
    | ok k =>
      have hQ : query_with_cascade O ids nm
          = (⟨k, some nm, some "name_search",
               (ids.takeWhile (idFails O)).map (idErrRec O)⟩,
             (ids.takeWhile (idFails O)).map (fun p => CCall.byId p.1)
               ++ [CCall.byName nm]) := by
        unfold query_with_cascade
        rw [cascadeIds_eq, hd]
        simp [hn]
      rw [hQ]
      refine ⟨?_, ?_, ?_, ?_, ?_⟩
      · simpa using Nat.succ_le_succ hlen
      · intro c hc
        rw [List.dropLast_concat] at hc
        obtain ⟨p', hp', rfl⟩ := List.mem_map.mp hc
        have ht : idFails O p' = true := List.mem_takeWhile_imp hp'
        simp [idFails] at ht
        simpa [callSucceeds] using ht
      · rw [List.filter_append]
        have h1 : ((ids.takeWhile (idFails O)).map
              (fun p => CCall.byId p.1)).filter
            (fun c => callSucceeds O c) = [] := by
          rw [List.filter_eq_nil_iff]
          intro c hc
          obtain ⟨p', hp', rfl⟩ := List.mem_map.mp hc
          have ht : idFails O p' = true := List.mem_takeWhile_imp hp'
          simp [idFails] at ht
          simp [callSucceeds, ht]
        rw [h1]
        simpa using List.length_filter_le (fun c => callSucceeds O c)
          [CCall.byName nm]
      · rw [hall]
        simp [hn, Except.isOk, Except.toBool]
      · intro e he
        obtain ⟨p', _, rfl⟩ := List.mem_map.mp he
        rfl
    | error e2 =>
      have hQ : query_with_cascade O ids nm
          = (⟨none, none, none,
               (ids.takeWhile (idFails O)).map (idErrRec O)
                 ++ [⟨"name_search", nm, e2, false⟩]⟩,
             (ids.takeWhile (idFails O)).map (fun p => CCall.byId p.1)
               ++ [CCall.byName nm]) := by
        unfold query_with_cascade
        rw [cascadeIds_eq, hd]
        simp [hn]
      rw [hQ]
      refine ⟨?_, ?_, ?_, ?_, ?_⟩
      · simpa using Nat.succ_le_succ hlen
      · intro c hc
        rw [List.dropLast_concat] at hc
        obtain ⟨p', hp', rfl⟩ := List.mem_map.mp hc
        have ht : idFails O p' = true := List.mem_takeWhile_imp hp'
        simp [idFails] at ht
        simpa [callSucceeds] using ht
      · rw [List.filter_append]
        have h1 : ((ids.takeWhile (idFails O)).map
              (fun p => CCall.byId p.1)).filter
            (fun c => callSucceeds O c) = [] := by
          rw [List.filter_eq_nil_iff]
          intro c hc
          obtain ⟨p', hp', rfl⟩ := List.mem_map.mp hc
          have ht : idFails O p' = true := List.mem_takeWhile_imp hp'
          simp [idFails] at ht
          simp [callSucceeds, ht]
        rw [h1]
        simpa using List.length_filter_le (fun c => callSucceeds O c)
          [CCall.byName nm]
      · rw [hall]
        simp [hn, msgOf, Except.isOk, Except.toBool]
      · intro e he
        rcases List.mem_append.mp he with h | h
        · obtain ⟨p', _, rfl⟩ := List.mem_map.mp h
          rfl
        · simp at h
          rw [h]

/-- A concrete service for the cascade: the first identifier fails, the
second resolves, the name search fails. -/
def c7O : COracle :=
  ⟨fun q => if q = "b" then .ok (some "K") else .error "no",
   fun _ => .error "nn"⟩

def c7ids : List (String × String) := [("a", "kegg"), ("b", "chebi")]

theorem C7_cascade_resolver_witness :
    callSucceeds c7O (CCall.byId "a") = false :=
  (C7_cascade_resolver c7O c7ids "nm").2.1 (CCall.byId "a")
    (by simp [query_with_cascade, cascadeIds, c7O, c7ids])

/-! ### C8: compound groups partition the metabolite set -/

theorem addMem_flatMap (k : String) (m : CMet) :
    ∀ acc : List (String × List CMet),
      List.Perm ((addMem acc k m).flatMap (fun g => g.2))
        (acc.flatMap (fun g => g.2) ++ [m])
  | [] => by simp [addMem]
  | (k', ms) :: rest => by
    by_cases h : k' = k
    · simp only [addMem]
      rw [if_pos h]
      simp only [List.flatMap_cons]
      rw [List.append_assoc, List.append_assoc]
      exact List.Perm.append_left ms List.perm_append_comm
    · simp only [addMem]
      rw [if_neg h]
      simp only [List.flatMap_cons]
      rw [List.append_assoc]
      exact List.Perm.append_left ms (addMem_flatMap k m rest)

theorem compound_groups_perm_aux (mets : List CMet) :
    ∀ acc : List (String × List CMet),
      List.Perm
        ((mets.foldl (fun acc m => addMem acc (groupKey m) m) acc).flatMap
          (fun g => g.2))
        (acc.flatMap (fun g => g.2) ++ mets) := by
  induction mets with
  | nil =>
    intro acc
    rw [List.foldl_nil, List.append_nil]
  | cons m ms ih =>
    intro acc
    rw [List.foldl_cons]
    have h2 := List.Perm.append_right ms (addMem_flatMap (groupKey m) m acc)
    have h3 := (ih (addMem acc (groupKey m) m)).trans h2
    simpa using h3

theorem compound_groups_perm (mets : List CMet) :
    List.Perm ((compound_groups mets).flatMap (fun g => g.2)) mets := by
  simpa [compound_groups] using compound_groups_perm_aux mets []

theorem memberIds_perm (mets : List CMet) :
    List.Perm ((compound_groups mets).flatMap memberIds)
      (mets.map (fun m => m.id)) := by
  have h1 : (compound_groups mets).flatMap memberIds
      = ((compound_groups mets).flatMap (fun g => g.2)).map
          (fun m => m.id) := by
    rw [List.map_flatMap]
    rfl
  rw [h1]
  exact (compound_groups_perm mets).map (fun m => m.id)

/-- C8.  With pairwise-distinct model metabolite ids, the compound groups
partition the metabolite set: an id lies in some group's member list exactly
when it is the id of a model metabolite, and no id lies in the member lists
of two different groups. -/
theorem C8_compound_groups_partition (mets : List CMet)
    (hnodup : (mets.map (fun m => m.id)).Nodup) :
    (∀ i, i ∈ (compound_groups mets).flatMap memberIds ↔
      i ∈ mets.map (fun m => m.id)) ∧
    (compound_groups mets).Pairwise
      (fun g1 g2 => ∀ i ∈ memberIds g1, i ∉ memberIds g2) := by
  have hperm := memberIds_perm mets
  refine ⟨fun i => hperm.mem_iff, ?_⟩
  have hnd : ((compound_groups mets).flatMap memberIds).Nodup :=
    hperm.nodup_iff.mpr hnodup
  have hpw := (List.nodup_flatMap.mp hnd).2
  refine hpw.imp fun h => ?_
  intro i hi hj
  exact h hi hj

/-- Two compartmentalised copies of one compound and one distinct compound. -/
def cm1 : CMet := ⟨"a_c", "A", [("kegg.compound", "C1")]⟩

def cm2 : CMet := ⟨"a_m", "A", [("kegg.compound", "C1")]⟩

def cm3 : CMet := ⟨"b_c", "B", []⟩

theorem C8_compound_groups_partition_witness :
    "a_m" ∈ (compound_groups [cm1, cm2, cm3]).flatMap memberIds :=
  ((C8_compound_groups_partition [cm1, cm2, cm3]
      (by simp [cm1, cm2, cm3])).1 "a_m").mpr (by simp [cm1, cm2, cm3])

end ATACFlux
